import Mathlib

/-!
Verification of the markdown → LaTeX text-rewriting pipeline of
`script.py` (markdown-latex-pdf-builder).

Strings are modelled as `List Char`.  Each Python function that the claims
touch is shallowly embedded as an executable Lean definition.  The concrete
regular expressions of the source are modelled by hand-written matchers
(one per pattern); a generic fueled scanner reproduces `re.sub`'s
leftmost, non-overlapping scan.  File-system state (the build cache) and
external processes (mermaid renderer, python interpreter, kpsewhich) are
modelled as explicit state and oracle parameters.
-/

/-- The ASCII whitespace characters matched by Python's `\s` and stripped
by `str.strip()`. -/
def isWsChar (c : Char) : Bool :=
  c = ' ' ∨ c = '\t' ∨ c = '\n' ∨ c = '\r' ∨ c = '\x0b' ∨ c = '\x0c'

/-- Python `str.strip()`: remove whitespace from both ends. -/
def pyStrip (s : List Char) : List Char :=
  ((s.dropWhile isWsChar).reverse.dropWhile isWsChar).reverse

/-- Python `str.split("\n")` (as used on document content). -/
def splitOnNl (s : List Char) : List (List Char) :=
  match s with
  | [] => [[]]
  | c :: cs =>
    let r := splitOnNl cs
    if c = '\n' then [] :: r
    else match r with
         | [] => [[c]]
         | l :: ls => (c :: l) :: ls

/-- Python `"\n".join(lines)`. -/
def joinNl (ls : List (List Char)) : List Char :=
  match ls with
  | [] => []
  | [l] => l
  | l :: ls => l ++ '\n' :: joinNl ls

/-- Decimal digits of a natural number, as characters (Python `str(i)`). -/
def natDigits (i : Nat) : List Char := (Nat.repr i).data

/-- Does `pat` occur as a contiguous sublist of `s`?  (Python `in`.) -/
def containsSub (pat s : List Char) : Bool :=
  match s with
  | [] => pat.isPrefixOf s
  | _ :: cs => pat.isPrefixOf s || containsSub pat cs

/-- Fueled worker for `replaceAll`. -/
def replG (pat rep : List Char) : Nat → List Char → List Char
  | 0, s => s
  | _ + 1, [] => []
  | f + 1, c :: cs =>
    if pat.isPrefixOf (c :: cs) then
      rep ++ replG pat rep f ((c :: cs).drop pat.length)
    else c :: replG pat rep f cs

/-- Python `str.replace(pat, rep)`: replace every non-overlapping
occurrence, scanning left to right.  (The sources never call it with an
empty pattern; for an empty pattern we return `s` unchanged.) -/
def replaceAll (pat rep s : List Char) : List Char :=
  if pat = [] then s else replG pat rep s.length s

/-- Fueled worker for `subF`: `re.sub` with a replacement computed from
the match.  `try? s` returns `some (n, r)` when a match of length `n > 0`
starts at the head of `s`, to be replaced by `r`. -/
def subG (try? : List Char → Option (Nat × List Char)) :
    Nat → List Char → List Char
  | 0, s => s
  | _ + 1, [] => []
  | f + 1, c :: cs =>
    match try? (c :: cs) with
    | some (n, r) =>
      if n = 0 then c :: subG try? f cs
      else r ++ subG try? f ((c :: cs).drop n)
    | none => c :: subG try? f cs

/-- Model of `re.sub(pattern, repl, s)` for a hand-written matcher `try?`. -/
def subF (try? : List Char → Option (Nat × List Char)) (s : List Char) :
    List Char :=
  subG try? s.length s

/-- Fueled worker for `protF`: the `re.sub` calls whose replacement
function appends the match to a list of protected blocks and emits a
numbered placeholder.  `tok i` is the placeholder for index `i`. -/
def protG (try? : List Char → Option Nat) (tok : Nat → List Char) :
    Nat → List Char → List (List Char) → List Char × List (List Char)
  | 0, s, bs => (s, bs)
  | _ + 1, [], bs => ([], bs)
  | f + 1, c :: cs, bs =>
    match try? (c :: cs) with
    | some n =>
      if n = 0 then
        let (t, bs') := protG try? tok f cs bs
        (c :: t, bs')
      else
        let (t, bs') :=
          protG try? tok f ((c :: cs).drop n) (bs ++ [(c :: cs).take n])
        (tok bs.length ++ t, bs')
    | none =>
      let (t, bs') := protG try? tok f cs bs
      (c :: t, bs')

/-- One protection pass: replace each match by a numbered placeholder and
record the matched text. -/
def protF (try? : List Char → Option Nat) (tok : Nat → List Char)
    (s : List Char) (bs : List (List Char)) : List Char × List (List Char) :=
  protG try? tok s.length s bs

/-- Fueled worker for `findF` (`re.findall` collecting one group). -/
def findG (try? : List Char → Option (Nat × List Char)) :
    Nat → List Char → List (List Char)
  | 0, _ => []
  | _ + 1, [] => []
  | f + 1, c :: cs =>
    match try? (c :: cs) with
    | some (n, g) =>
      if n = 0 then findG try? f cs
      else g :: findG try? f ((c :: cs).drop n)
    | none => findG try? f cs

/-- Model of `re.findall(pattern, s)` returning the captured group of each
non-overlapping match, leftmost first. -/
def findF (try? : List Char → Option (Nat × List Char)) (s : List Char) :
    List (List Char) :=
  findG try? s.length s

/-- Fueled worker for `searchF` (`re.search` as a boolean). -/
def searchG (try? : List Char → Option (Nat × List Char)) :
    Nat → List Char → Bool
  | 0, _ => false
  | _ + 1, [] => false
  | f + 1, c :: cs =>
    match try? (c :: cs) with
    | some _ => true
    | none => searchG try? f cs

/-- Is there a match of `try?` anywhere in `s`? -/
def searchF (try? : List Char → Option (Nat × List Char)) (s : List Char) :
    Bool :=
  searchG try? s.length s

/-- Length of the run of copies of `c` at the head of `s`. -/
def runLen (c : Char) : List Char → Nat
  | [] => 0
  | d :: ds => if d = c then runLen c ds + 1 else 0

/-- First offset in `s` at which a run of at least `k` copies of `c`
starts, together with the full length of that run. -/
def findRunGe (c : Char) (k : Nat) : List Char → Option (Nat × Nat)
  | [] => none
  | d :: ds =>
    let r := runLen c (d :: ds)
    if k ≤ r then some (0, r)
    else match findRunGe c k ds with
         | some (e, r') => some (e + 1, r')
         | none => none

/-! ### Matchers for the concrete regular expressions of the source

Each matcher decides whether a match starts at the head of its argument
and returns the match length (and, for `subF`/`findF` matchers, the
replacement or captured group).  They reproduce Python `re` semantics for
the specific pattern named in their doc comment, including greedy/lazy
quantifier resolution. -/

/-- Pattern `` ````+.*?````+ `` (DOTALL): a run of ≥ 4 backticks, a lazy
gap, then the next run of ≥ 4 backticks (consumed fully by the greedy
trailing `+`).  A single run of ≥ 8 backticks matches by itself (the
greedy opener backtracks until the closer fits inside the run). -/
def tryFence4 : List Char → Option Nat
  | [] => none
  | c :: cs =>
    if c = '\x60' then
      let k := runLen '\x60' (c :: cs)
      if 4 ≤ k then
        match findRunGe '\x60' 4 ((c :: cs).drop k) with
        | some (e, r) => some (k + e + r)
        | none => if 8 ≤ k then some k else none
      else none
    else none

/-- Pattern `` ```.*?``` `` (DOTALL): three backticks, a lazy gap, then
the earliest three consecutive backticks. -/
def tryFence3 : List Char → Option Nat
  | [] => none
  | c :: cs =>
    if c = '\x60' then
      if 3 ≤ runLen '\x60' (c :: cs) then
        match findRunGe '\x60' 3 ((c :: cs).drop 3) with
        | some (e, _) => some (3 + e + 3)
        | none => none
      else none
    else none

/-- Pattern `` `[^`\n]*` ``: inline code, possibly empty body. -/
def tryInlineCode : List Char → Option Nat
  | [] => none
  | c :: cs =>
    if c = '\x60' then
      let m := (cs.takeWhile (fun d => ¬(d = '\x60' ∨ d = '\n'))).length
      match (cs.drop m).head? with
      | some '\x60' => some (m + 2)
      | _ => none
    else none

/-- Pattern `` `[^`\n]+` ``: inline code, non-empty body
(the `escape_signs` variant). -/
def tryInlineCodePlus : List Char → Option Nat
  | [] => none
  | c :: cs =>
    if c = '\x60' then
      let m := (cs.takeWhile (fun d => ¬(d = '\x60' ∨ d = '\n'))).length
      if 1 ≤ m then
        match (cs.drop m).head? with
        | some '\x60' => some (m + 2)
        | _ => none
      else none
    else none

/-- Pattern `\$\$.*?\$\$` (DOTALL): display math. -/
def tryMath2 : List Char → Option Nat
  | [] => none
  | c :: cs =>
    if c = '$' then
      if 2 ≤ runLen '$' (c :: cs) then
        match findRunGe '$' 2 ((c :: cs).drop 2) with
        | some (e, _) => some (2 + e + 2)
        | none => none
      else none
    else none

/-- Pattern `\$[^$\n]*\$`: inline math, possibly empty body. -/
def tryMath1 : List Char → Option Nat
  | [] => none
  | c :: cs =>
    if c = '$' then
      let m := (cs.takeWhile (fun d => ¬(d = '$' ∨ d = '\n'))).length
      match (cs.drop m).head? with
      | some '$' => some (m + 2)
      | _ => none
    else none

/-- Pattern `\$[^$\n]+\$`: inline math, non-empty body
(the `escape_signs` variant). -/
def tryMath1Plus : List Char → Option Nat
  | [] => none
  | c :: cs =>
    if c = '$' then
      let m := (cs.takeWhile (fun d => ¬(d = '$' ∨ d = '\n'))).length
      if 1 ≤ m then
        match (cs.drop m).head? with
        | some '$' => some (m + 2)
        | _ => none
      else none
    else none

/-- Pattern `` `+\{=latex\}.*?`+ `` (DOTALL): a raw-LaTeX fence.  The
greedy opener takes the whole backtick run, `{=latex}` must follow, and
the closer is the earliest later backtick together with its full run. -/
def tryLatexRaw : List Char → Option Nat
  | [] => none
  | c :: cs =>
    if c = '\x60' then
      let k := runLen '\x60' (c :: cs)
      if "\x7b=latex\x7d".data.isPrefixOf ((c :: cs).drop k) then
        match findRunGe '\x60' 1 ((c :: cs).drop (k + 8)) with
        | some (e, r) => some (k + 8 + e + r)
        | none => none
      else none
    else none

/-! ### The Protection Ledger (`protect_code_and_math_blocks` /
`restore_protected_blocks`) and the escape pass (`escape_signs`) -/

/-- The placeholder token `__PROTECTED_PLACEHOLDER_<i>__`. -/
def protectTok (i : Nat) : List Char :=
  "__PROTECTED_PLACEHOLDER_".data ++ natDigits i ++ "__".data

/-- The placeholder token `__ESCAPE_PROTECTED_<i>__`. -/
def escapeTok (i : Nat) : List Char :=
  "__ESCAPE_PROTECTED_".data ++ natDigits i ++ "__".data

/-- Model of `protect_code_and_math_blocks(content)`: sequentially replace
quadruple-backtick fences, triple-backtick fences, inline code, display
math and inline math by numbered placeholders, collecting the matched
text; the placeholder counter is shared by the five passes. -/
def protect_code_and_math_blocks (content : List Char) :
    List Char × List (List Char) :=
  let (c1, b1) := protF tryFence4 protectTok content []
  let (c2, b2) := protF tryFence3 protectTok c1 b1
  let (c3, b3) := protF tryInlineCode protectTok c2 b2
  let (c4, b4) := protF tryMath2 protectTok c3 b3
  protF tryMath1 protectTok c4 b4

/-- Model of `restore_protected_blocks(content, protected_blocks)`: for
`i = 0, 1, ...` in order, replace every occurrence of placeholder `i`
by block `i`. -/
def restore_protected_blocks (content : List Char)
    (blocks : List (List Char)) : List Char :=
  blocks.enum.foldl (fun c ib => replaceAll (protectTok ib.1) ib.2 c) content

/-- Model of `escape_signs(content, to_escape)`: protect raw-LaTeX fences, code
and math with `__ESCAPE_PROTECTED_<i>__` placeholders, backslash-escape
each sign everywhere in the remaining text, then restore the placeholders
for `i = 0, 1, ...` in order. -/
def escape_signs (content : List Char) (to_escape : List (List Char)) :
    List Char :=
  let (c1, b1) := protF tryLatexRaw escapeTok content []
  let (c2, b2) := protF tryFence4 escapeTok c1 b1
  let (c3, b3) := protF tryFence3 escapeTok c2 b2
  let (c4, b4) := protF tryInlineCodePlus escapeTok c3 b3
  let (c5, b5) := protF tryMath2 escapeTok c4 b4
  let (c6, b6) := protF tryMath1Plus escapeTok c5 b5
  let c7 := to_escape.foldl (fun c sign => replaceAll sign ('\\' :: sign) c) c6
  b6.enum.foldl (fun c ib => replaceAll (escapeTok ib.1) ib.2 c) c7

/-! ### Inline formatting engine (`apply_markdown_formatting_math_safe`) -/

/-- Do the first two characters of `l` both equal `c`? -/
def twoCharAt (c : Char) (l : List Char) : Bool :=
  match l with
  | a :: b :: _ => a = c ∧ b = c
  | _ => false

/-- Pattern `==([^=\n]+)==` → `\mdhighlight{...}`. -/
def tryHighlight : List Char → Option (Nat × List Char)
  | c1 :: c2 :: rest =>
    if c1 = '=' ∧ c2 = '=' then
      let mid := rest.takeWhile (fun d => ¬(d = '=' ∨ d = '\n'))
      if 1 ≤ mid.length ∧ twoCharAt '=' (rest.drop mid.length) then
        some (mid.length + 4, "\\mdhighlight\x7b".data ++ mid ++ ['\x7d'])
      else none
    else none
  | _ => none

/-- Pattern `~~([^~]+)~~` → `\mdstrikethrough{...}`. -/
def tryStrike : List Char → Option (Nat × List Char)
  | c1 :: c2 :: rest =>
    if c1 = '~' ∧ c2 = '~' then
      let mid := rest.takeWhile (fun d => ¬(d = '~'))
      if 1 ≤ mid.length ∧ twoCharAt '~' (rest.drop mid.length) then
        some (mid.length + 4, "\\mdstrikethrough\x7b".data ++ mid ++ ['\x7d'])
      else none
    else none
  | _ => none

/-- Pattern `\^([^^]+)\^` → `\textsuperscript{...}`. -/
def trySuper : List Char → Option (Nat × List Char)
  | c1 :: rest =>
    if c1 = '^' then
      let mid := rest.takeWhile (fun d => ¬(d = '^'))
      if 1 ≤ mid.length ∧ (rest.drop mid.length).head? == some '^' then
        some (mid.length + 2, "\\textsuperscript\x7b".data ++ mid ++ ['\x7d'])
      else none
    else none
  | _ => none

/-- Pattern `~([^~]+)~` → `\textsubscript{...}`. -/
def trySubscript : List Char → Option (Nat × List Char)
  | c1 :: rest =>
    if c1 = '~' then
      let mid := rest.takeWhile (fun d => ¬(d = '~'))
      if 1 ≤ mid.length ∧ (rest.drop mid.length).head? == some '~' then
        some (mid.length + 2, "\\textsubscript\x7b".data ++ mid ++ ['\x7d'])
      else none
    else none
  | _ => none

/-- Pattern `:sc\[([^\]]+)\]` → `\textsc{...}`. -/
def trySc : List Char → Option (Nat × List Char)
  | [] => none
  | c :: t =>
    if c = ':' then
      match t with
      | 's' :: 'c' :: '[' :: rest =>
        let mid := rest.takeWhile (fun d => ¬(d = ']'))
        if 1 ≤ mid.length ∧ (rest.drop mid.length).head? == some ']' then
          some (mid.length + 5, "\\textsc\x7b".data ++ mid ++ ['\x7d'])
        else none
      | _ => none
    else none

/-- Pattern `:u\[([^\]]+)\]` → `\underline{...}`. -/
def tryU : List Char → Option (Nat × List Char)
  | [] => none
  | c :: t =>
    if c = ':' then
      match t with
      | 'u' :: '[' :: rest =>
        let mid := rest.takeWhile (fun d => ¬(d = ']'))
        if 1 ≤ mid.length ∧ (rest.drop mid.length).head? == some ']' then
          some (mid.length + 4, "\\underline\x7b".data ++ mid ++ ['\x7d'])
        else none
      | _ => none
    else none

/-- Model of `apply_markdown_formatting_math_safe(content)`: protect code
and math, then apply the six inline-formatting substitutions in source
order (highlight, strikethrough, superscript, subscript, small caps,
underline), then restore. -/
def apply_markdown_formatting_math_safe (content : List Char) : List Char :=
  let (c0, bs) := protect_code_and_math_blocks content
  let c1 := subF tryHighlight c0
  let c2 := subF tryStrike c1
  let c3 := subF trySuper c2
  let c4 := subF trySubscript c3
  let c5 := subF trySc c4
  let c6 := subF tryU c5
  restore_protected_blocks c6 bs

/-! ### Footnote converter (`convert_markdown_footnotes_to_latex`) -/

/-- Python dict lookup for a dict built by repeated assignment: the last
binding of a key wins. -/
def dictLookup (m : List (List Char × List Char)) (k : List Char) :
    Option (List Char) :=
  (m.reverse.find? (fun p => p.1 == k)).map (·.2)

/-- The lookahead `(?=\n\s*\n|\n\s*\[|\Z)` of the footnote-definition
pattern, evaluated at the remaining text `t`. -/
def defLookahead (t : List Char) : Bool :=
  match t with
  | [] => true
  | c :: cs =>
    if c = '\n' then
      let r := cs.takeWhile isWsChar
      '\n' ∈ r ∨ (cs.drop r.length).head? == some '['
    else false

/-- Minimal body length `b ≥ 1` such that `defLookahead` holds after `b`
characters of `t` (the lazy `(.+?)` of the definition pattern). -/
def bodySearch : List Char → Option Nat
  | [] => none
  | _ :: cs =>
    if defLookahead cs then some 1
    else (bodySearch cs).map (· + 1)

/-- Greedy-first backtracking over the `\s*` of the definition pattern:
try whitespace length `k, k-1, ..., 0`, and for each the minimal body. -/
def wsBack (t : List Char) : Nat → Option (Nat × Nat)
  | 0 =>
    match bodySearch t with
    | some b => some (0, b)
    | none => none
  | k + 1 =>
    match bodySearch (t.drop (k + 1)) with
    | some b => some (k + 1, b)
    | none => wsBack t k

/-- Pattern `^\[(\^[^\]]+)\]:\s*(.+?)(?=\n\s*\n|\n\s*\[|\Z)`
(MULTILINE, DOTALL), matched at a line start: returns the match length,
the label (including the caret) and the stripped body. -/
def tryFootnoteDef (s : List Char) : Option (Nat × List Char × List Char) :=
  match s with
  | '[' :: '^' :: rest =>
    let inner := rest.takeWhile (fun d => ¬(d = ']'))
    let m := inner.length
    if 1 ≤ m then
      match rest.drop m with
      | ']' :: ':' :: tail =>
        let w := (tail.takeWhile isWsChar).length
        match wsBack tail w with
        | some (k, b) =>
          some (m + 4 + k + b, '^' :: inner, pyStrip ((tail.drop k).take b))
        | none => none
      | _ => none
    else none
  | _ => none

/-- Fueled worker for the definition-extraction pass: a MULTILINE `^`
anchor, so `tryFootnoteDef` is only tried at the string start and after a
newline.  Matches are removed (replaced by the empty string) and their
(label, body) pairs collected in match order. -/
def extractDefsG :
    Nat → Bool → List Char → List (List Char × List Char) →
      List Char × List (List Char × List Char)
  | 0, _, s, defs => (s, defs)
  | _ + 1, _, [], defs => ([], defs)
  | f + 1, atLS, c :: cs, defs =>
    match if atLS then tryFootnoteDef (c :: cs) else none with
    | some (n, lab, body) =>
      if n = 0 then
        let (t, d') := extractDefsG f (c = '\n') cs defs
        (c :: t, d')
      else
        extractDefsG f (((c :: cs).take n).getLast? == some '\n')
          ((c :: cs).drop n) (defs ++ [(lab, body)])
    | none =>
      let (t, d') := extractDefsG f (c = '\n') cs defs
      (c :: t, d')

/-- The definition-extraction pass of the footnote converter. -/
def extract_footnote_defs (s : List Char) :
    List Char × List (List Char × List Char) :=
  extractDefsG s.length true s []

/-- Pattern `\^\[([^\]]+)\]`: an inline footnote, replaced by
`<cmd>{body}`. -/
def tryInlineFootnote (cmd : List Char) : List Char → Option (Nat × List Char)
  | '^' :: '[' :: rest =>
    let mid := rest.takeWhile (fun d => ¬(d = ']'))
    if 1 ≤ mid.length ∧ (rest.drop mid.length).head? == some ']' then
      some (mid.length + 3, cmd ++ '\x7b' :: (mid ++ ['\x7d']))
    else none
  | _ => none

/-- Pattern `\[(\^[^\]]+)\]`: a footnote reference.  A label with a
definition becomes `<cmd>{definition}`; an unresolved label is replaced
by the matched text itself (left literal). -/
def tryRefFootnote (defs : List (List Char × List Char)) (cmd : List Char) :
    List Char → Option (Nat × List Char)
  | '[' :: '^' :: rest =>
    let inner := rest.takeWhile (fun d => ¬(d = ']'))
    if 1 ≤ inner.length ∧ (rest.drop inner.length).head? == some ']' then
      match dictLookup defs ('^' :: inner) with
      | some body => some (inner.length + 3, cmd ++ '\x7b' :: (body ++ ['\x7d']))
      | none => some (inner.length + 3, '[' :: '^' :: (inner ++ [']']))
    else none
  | _ => none

/-- Model of `convert_markdown_footnotes_to_latex(content, use_comments)`:
protect code and math, extract all reference definitions (removing them),
replace inline footnotes, replace reference uses, restore.  The
`use_comments` mode switches the emitted command for both syntaxes. -/
def convert_markdown_footnotes_to_latex (content : List Char)
    (use_comments : Bool := false) : List Char :=
  let cmd := if use_comments then "\\todoComment".data else "\\footnote".data
  let (c1, bs) := protect_code_and_math_blocks content
  let (c2, defs) := extract_footnote_defs c1
  let c3 := subF (tryInlineFootnote cmd) c2
  let c4 := subF (tryRefFootnote defs cmd) c3
  restore_protected_blocks c4 bs

/-! ### Variable substitutor (`substitute_variables`) -/

/-- Pattern `\{\{([^}]+)\}\}`: a variable occurrence; returns the match
length and the captured name (group 1, unstripped). -/
def varAnyCore : List Char → Option (Nat × List Char)
  | [] => none
  | [_] => none
  | c :: c2 :: rest =>
    if c = '\x7b' ∧ c2 = '\x7b' then
      let mid := rest.takeWhile (fun d => ¬(d = '\x7d'))
      if 1 ≤ mid.length ∧ twoCharAt '\x7d' (rest.drop mid.length) then
        some (mid.length + 4, mid)
      else none
    else none

/-- Pattern `\{\{\s*<name>\s*\}\}` (with `re.escape`d literal `name`):
a whitespace-tolerant occurrence of one specific variable, replaced by
`repl`. -/
def tryVarNamed (nm repl : List Char) : List Char → Option (Nat × List Char)
  | [] => none
  | [_] => none
  | c :: c2 :: rest =>
    if c = '\x7b' ∧ c2 = '\x7b' then
      let w1 := (rest.takeWhile isWsChar).length
      let r1 := rest.drop w1
      if nm.isPrefixOf r1 then
        let r2 := r1.drop nm.length
        let w2 := (r2.takeWhile isWsChar).length
        if twoCharAt '\x7d' (r2.drop w2) then
          some (2 + w1 + nm.length + w2 + 2, repl)
        else none
      else none
    else none

/-- The chained `str.replace` escaping of a substituted value
(`\ % & $ # ^ _ { }`).  The chain is equivalent to this character-wise
map because no earlier replacement produces a character targeted by a
later one. -/
def escapeValue (v : List Char) : List Char :=
  v.foldr
    (fun c acc =>
      (if c = '\\' then ['\\', '\\']
       else if c = '%' ∨ c = '&' ∨ c = '$' ∨ c = '#' ∨ c = '^' ∨ c = '_'
              ∨ c = '\x7b' ∨ c = '\x7d' then ['\\', c]
       else [c]) ++ acc)
    []

/-- Python `re.sub` replacement-template decoding: `\\` denotes one
backslash; a backslash before a non-letter is kept as both characters
(every backslash `escapeValue` emits is followed by a backslash or a
non-letter special, so no other template escape can arise). -/
def templateDecode : List Char → List Char
  | '\\' :: '\\' :: rest => '\\' :: templateDecode rest
  | '\\' :: c :: rest => '\\' :: c :: templateDecode rest
  | c :: rest => c :: templateDecode rest
  | [] => []

/-- Model of `substitute_variables(content, meta)` where `variables` is
the `variables` map of the metadata (in insertion order).  Returns the
rewritten content together with the list of distinct unresolved names
reported in the single warning (the source builds it as
`list(set(...))`; we model it as first-occurrence deduplication). -/
def substitute_variables (content : List Char)
    (vars : List (List Char × List Char)) :
    List Char × List (List Char) :=
  let all := findF varAnyCore content
  if all = [] then (content, [])
  else
    let (c1, bs) := protect_code_and_math_blocks content
    let c2 := vars.foldl
      (fun c nv =>
        if searchF (tryVarNamed nv.1 []) c then
          subF (tryVarNamed nv.1 (templateDecode (escapeValue nv.2))) c
        else c)
      c1
    let unres := findF varAnyCore c2
    let report := if unres = [] then [] else (unres.map pyStrip).dedup
    let c3 :=
      if unres = [] then c2
      else
        subF
          (fun s =>
            (varAnyCore s).map
              (fun p => (p.1, "[UNDEFINED: ".data ++ pyStrip p.2 ++ [']'])))
          c2
    (restore_protected_blocks c3 bs, report)

/-! ### Emoji mapper (`process_emojis`) -/

/-- Outcome of building the emoji table: the `kpsewhich` query raises, or
the table file is absent (or the query returns an empty path), or the
table yields a glyph → shortcode mapping in file order. -/
inductive EmojiSource where
  | queryFails : EmojiSource
  | tableAbsent : EmojiSource
  | table : List (List Char × List Char) → EmojiSource

/-- Stable insertion into a length-descending list (Python
`sorted(keys, key=len, reverse=True)`). -/
def insLenDesc (x : List Char) : List (List Char) → List (List Char)
  | [] => [x]
  | y :: ys => if y.length < x.length then x :: y :: ys else y :: insLenDesc x ys

/-- Python `sorted(l, key=len, reverse=True)` (stable). -/
def sortLenDesc (l : List (List Char)) : List (List Char) :=
  l.foldl (fun acc x => insLenDesc x acc) []

/-- The alternation of all emoji glyphs, longest first: the first glyph in
sorted order that is a prefix of `s` matches; its replacement is
`\emoji{shortcode}` (or the glyph itself if it had no shortcode). -/
def tryEmoji (keys : List (List Char)) (mp : List (List Char × List Char)) :
    List Char → Option (Nat × List Char) :=
  fun s =>
    match keys.find? (fun e => ¬(e = []) ∧ e.isPrefixOf s) with
    | some e =>
      some (e.length,
        match dictLookup mp e with
        | some sc => "\\emoji\x7b".data ++ sc ++ ['\x7d']
        | none => e)
    | none => none

/-- Model of `process_emojis(content)` with the external emoji data
source as an oracle.  A failing `kpsewhich` query propagates as an
exception (`subprocess.check_output` with no handler); an absent table
leaves the map empty, skipping substitution entirely. -/
def process_emojis (src : EmojiSource) (content : List Char) :
    Except Unit (List Char) :=
  let (c1, bs) := protect_code_and_math_blocks content
  match src with
  | .queryFails => .error ()
  | .tableAbsent => .ok (restore_protected_blocks c1 bs)
  | .table entries =>
    let keys := sortLenDesc ((entries.map (·.1)).dedup)
    if keys = [] then .ok (restore_protected_blocks c1 bs)
    else .ok (restore_protected_blocks (subF (tryEmoji keys entries) c1) bs)

/-! ### Container block parser (`process_container_blocks`) and marker
resolution (`post_process_alerts`) -/

/-- The `container_types` map of the source, in order. -/
def containerTypes : List (List Char × List Char) :=
  [("note".data, "mdalertnote".data),
   ("tip".data, "mdalerttip".data),
   ("important".data, "mdalertimportant".data),
   ("warning".data, "mdalertwarning".data),
   ("caution".data, "mdalertcaution".data),
   ("center".data, "mdcenter".data),
   ("right".data, "mdright".data),
   ("box".data, "mdbox".data)]

/-- Lower-case an ASCII letter (Python `.lower()` on the matched type,
and the `re.IGNORECASE` flag of the fence patterns). -/
def asciiLower (c : Char) : Char :=
  if 'A' ≤ c ∧ c ≤ 'Z' then Char.ofNat (c.toNat + 32) else c

/-- Pattern `^(\s*):::\s*(note|tip|important|warning|caution|center|right|box)\s*$`
(IGNORECASE): an opening fence; returns the indentation (group 1) and the
LaTeX environment for the lower-cased type. -/
def matchOpenFence (l : List Char) : Option (List Char × List Char) :=
  let ind := l.takeWhile isWsChar
  match l.drop ind.length with
  | ':' :: ':' :: ':' :: r2 =>
    let r3 := (r2.dropWhile isWsChar).map asciiLower
    match containerTypes.find? (fun kv => kv.1.isPrefixOf r3) with
    | some kv =>
      if (r3.drop kv.1.length).all isWsChar then some (ind, kv.2) else none
    | none => none
  | _ => none

/-- Pattern `^(\s*):::\s*$`: a bare closing fence. -/
def matchCloseFence (l : List Char) : Bool :=
  match l.dropWhile isWsChar with
  | ':' :: ':' :: ':' :: r2 => r2.all isWsChar
  | _ => false

/-- The per-line cleaning of captured container content (source lines
673-678): strip the opening fence's indentation if the line starts with
it and is strictly longer; else a whitespace-only line becomes empty;
else the line passes through unchanged. -/
def cleanLine (ind l : List Char) : List Char :=
  if ind.isPrefixOf l ∧ ind.length < l.length then l.drop ind.length
  else if (pyStrip l).isEmpty then []
  else l

/-- The capture loop of `process_container_blocks`: collect cleaned lines
until the nesting counter returns to zero (an opening fence increments
it, a bare fence decrements it; the final closing fence is not captured).
An unterminated block consumes to end of document. -/
def captureBlock (ind : List Char) :
    List (List Char) → Nat → List (List Char) × List (List Char)
  | [], _ => ([], [])
  | l :: ls, nest =>
    if (matchOpenFence l).isSome then
      let (b, r) := captureBlock ind ls (nest + 1)
      (cleanLine ind l :: b, r)
    else if matchCloseFence l then
      if nest = 1 then ([], ls)
      else
        let (b, r) := captureBlock ind ls (nest - 1)
        (cleanLine ind l :: b, r)
    else
      let (b, r) := captureBlock ind ls nest
      (cleanLine ind l :: b, r)

/-- Drop trailing whitespace-only lines of a captured body. -/
def trimTrailingBlanks (ls : List (List Char)) : List (List Char) :=
  (ls.reverse.dropWhile (fun l => (pyStrip l).isEmpty)).reverse

/-- The deferred begin marker `__ALERT_BEGIN_<id>_<env>__`. -/
def alertBegin (id : Nat) (env : List Char) : List Char :=
  "__ALERT_BEGIN_".data ++ natDigits id ++ '_' :: env ++ "__".data

/-- The deferred end marker `__ALERT_END_<id>_<env>__`. -/
def alertEnd (id : Nat) (env : List Char) : List Char :=
  "__ALERT_END_".data ++ natDigits id ++ '_' :: env ++ "__".data

/-- The main line loop of `process_container_blocks`, parameterised by
the recursive reprocessing function `pcb` applied to each captured body.
`cnt` is `alert_counter`; the fuel is at least the number of lines. -/
def loopW (pcb : List Char → List Char) :
    Nat → List (List Char) → Nat → List (List Char)
  | 0, ls, _ => ls
  | _ + 1, [], _ => []
  | f + 1, l :: ls, cnt =>
    match matchOpenFence l with
    | some (ind, env) =>
      let (body, rest) := captureBlock ind ls 1
      let inner := pcb (joinNl (trimTrailingBlanks body))
      let innerLines := if inner = [] then [] else splitOnNl inner
      (ind ++ alertBegin cnt env) :: [] :: innerLines.map (ind ++ ·) ++
        [] :: (ind ++ alertEnd cnt env) :: loopW pcb f rest (cnt + 1)
    | none => l :: loopW pcb f ls cnt

/-- Fueled model of `process_container_blocks`: protect code and math,
scan lines for container fences (emitting numbered begin/end markers and
recursively reprocessing each captured body with one unit less fuel),
join, restore.  The fuel bounds the recursion depth; nesting depth is at
most the line count, so `length + 1` fuel is always enough. -/
def containerFuel : Nat → List Char → List Char
  | 0, c => c
  | d + 1, c =>
    let (c', bs) := protect_code_and_math_blocks c
    let ls := splitOnNl c'
    restore_protected_blocks (joinNl (loopW (containerFuel d) ls.length ls 0)) bs

/-- Model of `process_container_blocks(content)`. -/
def process_container_blocks (content : List Char) : List Char :=
  containerFuel (content.length + 1) content

/-- Pattern `__ALERT_BEGIN_\d+_([a-z]+)__` → `\begin{<env>}`. -/
def tryAlertBegin (s : List Char) : Option (Nat × List Char) :=
  if "__ALERT_BEGIN_".data.isPrefixOf s then
    let t := s.drop 14
    let ds := t.takeWhile (fun c => c.isDigit)
    if 1 ≤ ds.length then
      match t.drop ds.length with
      | '_' :: u =>
        let env := u.takeWhile (fun c => 'a' ≤ c ∧ c ≤ 'z')
        if 1 ≤ env.length ∧ twoCharAt '_' (u.drop env.length) then
          some (14 + ds.length + 1 + env.length + 2,
            "\\begin\x7b".data ++ env ++ ['\x7d'])
        else none
      | _ => none
    else none
  else none

/-- Pattern `__ALERT_END_\d+_([a-z]+)__` → `\end{<env>}`. -/
def tryAlertEnd (s : List Char) : Option (Nat × List Char) :=
  if "__ALERT_END_".data.isPrefixOf s then
    let t := s.drop 12
    let ds := t.takeWhile (fun c => c.isDigit)
    if 1 ≤ ds.length then
      match t.drop ds.length with
      | '_' :: u =>
        let env := u.takeWhile (fun c => 'a' ≤ c ∧ c ≤ 'z')
        if 1 ≤ env.length ∧ twoCharAt '_' (u.drop env.length) then
          some (12 + ds.length + 1 + env.length + 2,
            "\\end\x7b".data ++ env ++ ['\x7d'])
        else none
      | _ => none
    else none
  else none

/-- Model of `post_process_alerts(content)`: protect code and math,
rewrite begin markers then end markers into LaTeX environments, restore. -/
def post_process_alerts (content : List Char) : List Char :=
  let (c1, bs) := protect_code_and_math_blocks content
  restore_protected_blocks (subF tryAlertEnd (subF tryAlertBegin c1)) bs

/-- The content-addressed artifact name `mermaid_<hash12>.pdf` for a
diagram source (after stripping). -/
def mermaidName (mdHex : List Char → List Char) (rawCode : List Char) :
    List Char :=
  "mermaid_".data ++ (mdHex (pyStrip rawCode)).take 12 ++ ".pdf".data

/-- The text-output artifact name `python_output_<hash12>.txt`. -/
def pyOutputName (mdHex : List Char → List Char) (code : List Char) :
    List Char :=
  "python_output_".data ++ (mdHex code).take 12 ++ ".txt".data

/-- Fueled worker for `envMarkers`. -/
def envMarkersG : Nat → List Char → List (Bool × List Char)
  | 0, _ => []
  | _ + 1, [] => []
  | f + 1, c :: cs =>
    if c = '\\' then
      if "begin\x7b".data.isPrefixOf cs then
        let nm := (cs.drop 6).takeWhile (fun d => ¬(d = '\x7d'))
        (true, nm) :: envMarkersG f ((cs.drop 6).drop (nm.length + 1))
      else if "end\x7b".data.isPrefixOf cs then
        let nm := (cs.drop 4).takeWhile (fun d => ¬(d = '\x7d'))
        (false, nm) :: envMarkersG f ((cs.drop 4).drop (nm.length + 1))
      else envMarkersG f cs
    else envMarkersG f cs

/-- The sequence of `\begin{...}` (`true`) and `\end{...}` (`false`)
environment markers occurring in a document, in order: the observable
begin/end structure produced by container parsing plus marker
resolution. -/
def envMarkers (s : List Char) : List (Bool × List Char) :=
  envMarkersG s.length s

/-! ### Diagram externalizer (`process_mermaid_diagrams`, per-block
closure `replace_mermaid_block`)

The md5 hex digest is modelled as a function parameter `mdHex`; the build
directory is modelled as the list of artifact file names present; the
external `mmdc` invocation is an oracle. -/

/-- Result of processing one mermaid block: the replacement text, the
cache (artifact names present in the build dir) afterwards, and how many
times the external renderer was invoked. -/
structure MermaidResult where
  text : List Char
  cache : List (List Char)
  calls : Nat
  deriving DecidableEq

/-- Outcome of one `mmdc` invocation: the process ran (with given
zero-exit-code and output-file-created flags), or raised an exception. -/
inductive MermaidOutcome where
  | runs : Bool → Bool → MermaidOutcome
  | excepts : MermaidOutcome

/-- The degraded plain literal block retaining the diagram source. -/
def mermaidFallback (code : List Char) : List Char :=
  "```text\n".data ++ code ++ "\n```".data

/-- The image-embed reference emitted for a rendered diagram. -/
def mermaidEmbed (name : List Char) : List Char :=
  "![Mermaid Diagram](".data ++ name ++ [')']

/-- Model of the `replace_mermaid_block` closure of
`process_mermaid_diagrams`: hash the stripped source, reuse the artifact
`mermaid_<hash12>.pdf` when present (no external call), otherwise invoke
the renderer; on non-zero exit or missing output file degrade to a text
block. -/
def replace_mermaid_block (mdHex : List Char → List Char)
    (oc : MermaidOutcome) (rawCode : List Char) (cache : List (List Char)) :
    MermaidResult :=
  let code := pyStrip rawCode
  let name := mermaidName mdHex rawCode
  if name ∈ cache then ⟨mermaidEmbed name, cache, 0⟩
  else
    match oc with
    | .excepts => ⟨mermaidFallback code, cache, 1⟩
    | .runs retZero created =>
      let cache' := if created then cache ++ [name] else cache
      if retZero ∧ created then ⟨mermaidEmbed name, cache', 1⟩
      else ⟨mermaidFallback code, cache', 1⟩

/-! ### Executable block runner (`process_executable_python_blocks`,
per-block closure `execute_python_block`) -/

/-- The artifact cache of the build directory, as seen by the runner:
text-output artifacts with their contents, and plot artifact names. -/
structure PyCache where
  texts : List (List Char × List Char)
  plots : List (List Char)
  deriving DecidableEq

/-- Outcome of one `python -c` invocation. -/
inductive ExecOutcome where
  | success : List Char → Bool → ExecOutcome
  | failure : List Char → ExecOutcome
  | timedOut : ExecOutcome
  | excepts : List Char → ExecOutcome

/-- Python `str.split()` with no argument: split on whitespace runs,
dropping empty fields (fueled worker). -/
def splitWsG : Nat → List Char → List (List Char)
  | 0, _ => []
  | f + 1, s =>
    match s.dropWhile isWsChar with
    | [] => []
    | c :: cs =>
      let w := (c :: cs).takeWhile (fun d => ¬(isWsChar d))
      w :: splitWsG f ((c :: cs).drop w.length)

/-- Python `str.split()` with no argument. -/
def splitWs (s : List Char) : List (List Char) := splitWsG s.length s

/-- Overwrite the artifact `k` with content `v` (`Path.write_text`). -/
def cacheWrite (m : List (List Char × List Char)) (k v : List Char) :
    List (List Char × List Char) :=
  m.filter (fun p => ¬(p.1 == k)) ++ [(k, v)]

/-- Join block parts with blank lines (`"\n\n".join(parts)`),
empty for no parts. -/
def joinParts (ps : List (List Char)) : List Char :=
  List.intercalate "\n\n".data ps

/-- The `` ```python ... ``` `` rendering of the source. -/
def pyCodePart (code : List Char) : List Char :=
  "```python\n".data ++ code ++ "\n```".data

/-- An `` ```output ... ``` `` block. -/
def pyOutputPart (body : List Char) : List Char :=
  "```output\n".data ++ body ++ "\n```".data

/-- Model of the `execute_python_block` closure of
`process_executable_python_blocks`, for one fenced block
`` ```python {<propsStr>}\n<code>\n``` ``.  Returns the replacement
text, the cache afterwards, and how many times the interpreter was
invoked.  `mdHex` models the md5 hex digest and `oc` the interpreter
invocation. -/
def execute_python_block (mdHex : List Char → List Char) (oc : ExecOutcome)
    (propsStr code : List Char) (st : PyCache) :
    List Char × PyCache × Nat :=
  let props := splitWs propsStr
  if ¬(".execute".data ∈ props) then
    ("```python \x7b".data ++ propsStr ++ '\x7d' :: '\n' :: code ++ "\n```".data,
      st, 0)
  else
    let use_cache := ¬(".no-cache".data ∈ props)
    let show_code := ".show-code".data ∈ props ∧ ¬(".hide-code".data ∈ props)
    let show_output := ¬(".hide-output".data ∈ props)
    let code_hash := (mdHex code).take 12
    let has_matplotlib :=
      containsSub "matplotlib".data code ∨ containsSub "plt.".data code
    let codeParts := if show_code then [pyCodePart code] else []
    if has_matplotlib then
      let plot_filename := "python_plot_".data ++ code_hash ++ ".pdf".data
      let embedParts :=
        if show_output then ["![Python Plot](".data ++ plot_filename ++ [')']]
        else []
      if use_cache ∧ plot_filename ∈ st.plots then
        (joinParts (codeParts ++ embedParts), st, 0)
      else
        match oc with
        | .failure err =>
          let msg := if err = [] then "Unknown error".data else pyStrip err
          (joinParts (codeParts ++
            [pyOutputPart ("Error executing code:\n".data ++ msg)]), st, 1)
        | .success _ created =>
          if created then
            (joinParts (codeParts ++ embedParts),
              { st with plots := st.plots ++ [plot_filename] }, 1)
          else
            (joinParts (codeParts ++
              (if show_output then [pyOutputPart "No plot generated".data]
               else [])), st, 1)
        | .timedOut =>
          (joinParts (codeParts ++
            [pyOutputPart "Execution timed out (30s limit)".data]), st, 1)
        | .excepts m =>
          (joinParts (codeParts ++ [pyOutputPart ("Error: ".data ++ m)]), st, 1)
    else
      let output_filename := pyOutputName mdHex code
      match
        (if use_cache then dictLookup st.texts output_filename else none) with
      | some output =>
        (joinParts (codeParts ++
          (if show_output then
            [if ¬(output = []) then pyOutputPart output
             else pyOutputPart "(No output)".data]
           else [])), st, 0)
      | none =>
        match oc with
        | .failure err =>
          let msg := if err = [] then "Unknown error".data else pyStrip err
          (joinParts (codeParts ++
            [pyOutputPart ("Error executing code:\n".data ++ msg)]), st, 1)
        | .success stdout _ =>
          let output := pyStrip stdout
          let st' :=
            if use_cache then
              { st with texts := cacheWrite st.texts output_filename output }
            else st
          (joinParts (codeParts ++
            (if show_output then
              [if ¬(output = []) then pyOutputPart output
               else pyOutputPart "(No output)".data]
             else [])), st', 1)
        | .timedOut =>
          (joinParts (codeParts ++
            [pyOutputPart "Execution timed out (30s limit)".data]), st, 1)
        | .excepts m =>
          (joinParts (codeParts ++ [pyOutputPart ("Error: ".data ++ m)]), st, 1)

/-! ### Scanner lemmas

Fuel-irrelevance and stepping lemmas for the fueled scan engines, used to
evaluate the models on symbolic documents. -/

theorem subG_congr (try? : List Char → Option (Nat × List Char)) :
    ∀ (f g : Nat) (s : List Char), s.length ≤ f → s.length ≤ g →
      subG try? f s = subG try? g s := by
  intro f
  induction f with
  | zero =>
    intro g s hf _
    have hs : s = [] := List.eq_nil_of_length_eq_zero (Nat.le_zero.mp hf)
    subst hs
    cases g <;> rfl
  | succ f ih =>
    intro g s hf hg
    cases s with
    | nil => cases g <;> rfl
    | cons c cs =>
      cases g with
      | zero => simp at hg
      | succ g =>
        simp only [subG]
        cases h : try? (c :: cs) with
        | none =>
          rw [ih g cs (by simp at hf; omega) (by simp at hg; omega)]
        | some p =>
          obtain ⟨n, r⟩ := p
          dsimp only
          by_cases hn : n = 0
          · subst hn
            rw [if_pos rfl, if_pos rfl]
            rw [ih g cs (by simp at hf; omega) (by simp at hg; omega)]
          · rw [if_neg hn, if_neg hn]
            rw [ih g ((c :: cs).drop n)
              (by simp [List.length_drop] at hf ⊢; omega)
              (by simp [List.length_drop] at hg ⊢; omega)]

theorem subF_cons_none {try? : List Char → Option (Nat × List Char)}
    {c : Char} {cs : List Char} (h : try? (c :: cs) = none) :
    subF try? (c :: cs) = c :: subF try? cs := by
  unfold subF
  simp only [List.length_cons, subG, h]

theorem subF_cons_some {try? : List Char → Option (Nat × List Char)}
    {c : Char} {cs : List Char} {n : Nat} {r : List Char}
    (h : try? (c :: cs) = some (n, r)) (hn : n ≠ 0) :
    subF try? (c :: cs) = r ++ subF try? ((c :: cs).drop n) := by
  unfold subF
  simp only [List.length_cons, subG, h, if_neg hn]
  congr 1
  apply subG_congr
  · simp [List.length_drop]; omega
  · exact Nat.le_refl _

theorem subF_eq_self (trig : Char → Bool)
    {try? : List Char → Option (Nat × List Char)}
    (htry : ∀ c t, trig c = false → try? (c :: t) = none) :
    ∀ s, (∀ c ∈ s, trig c = false) → subF try? s = s := by
  intro s
  induction s with
  | nil => intro _; rfl
  | cons c cs ih =>
    intro hs
    rw [subF_cons_none (htry c cs (hs c (by simp)))]
    rw [ih (fun d hd => hs d (by simp [hd]))]

theorem subF_append_skip (trig : Char → Bool)
    {try? : List Char → Option (Nat × List Char)}
    (htry : ∀ c t, trig c = false → try? (c :: t) = none) :
    ∀ (a b : List Char), (∀ c ∈ a, trig c = false) →
      subF try? (a ++ b) = a ++ subF try? b := by
  intro a
  induction a with
  | nil => intro b _; rfl
  | cons c a ih =>
    intro b ha
    rw [List.cons_append, subF_cons_none (htry c (a ++ b) (ha c (by simp)))]
    rw [ih b (fun d hd => ha d (by simp [hd]))]
    rfl

theorem protG_congr (try? : List Char → Option Nat) (tok : Nat → List Char) :
    ∀ (f g : Nat) (s : List Char) (bs : List (List Char)),
      s.length ≤ f → s.length ≤ g →
      protG try? tok f s bs = protG try? tok g s bs := by
  intro f
  induction f with
  | zero =>
    intro g s bs hf _
    have hs : s = [] := List.eq_nil_of_length_eq_zero (Nat.le_zero.mp hf)
    subst hs
    cases g <;> rfl
  | succ f ih =>
    intro g s bs hf hg
    cases s with
    | nil => cases g <;> rfl
    | cons c cs =>
      cases g with
      | zero => simp at hg
      | succ g =>
        simp only [protG]
        cases h : try? (c :: cs) with
        | none =>
          rw [ih g cs bs (by simp at hf; omega) (by simp at hg; omega)]
        | some n =>
          dsimp only
          by_cases hn : n = 0
          · subst hn
            rw [if_pos rfl, if_pos rfl]
            rw [ih g cs bs (by simp at hf; omega) (by simp at hg; omega)]
          · rw [if_neg hn, if_neg hn]
            rw [ih g ((c :: cs).drop n) (bs ++ [(c :: cs).take n])
              (by simp [List.length_drop] at hf ⊢; omega)
              (by simp [List.length_drop] at hg ⊢; omega)]

theorem protF_cons_none {try? : List Char → Option Nat} {tok : Nat → List Char}
    {c : Char} {cs : List Char} {bs : List (List Char)}
    (h : try? (c :: cs) = none) :
    protF try? tok (c :: cs) bs =
      (c :: (protF try? tok cs bs).1, (protF try? tok cs bs).2) := by
  unfold protF
  simp only [List.length_cons, protG, h]

theorem protF_cons_some {try? : List Char → Option Nat} {tok : Nat → List Char}
    {c : Char} {cs : List Char} {bs : List (List Char)} {n : Nat}
    (h : try? (c :: cs) = some n) (hn : n ≠ 0) :
    protF try? tok (c :: cs) bs =
      (tok bs.length ++
        (protF try? tok ((c :: cs).drop n) (bs ++ [(c :: cs).take n])).1,
       (protF try? tok ((c :: cs).drop n) (bs ++ [(c :: cs).take n])).2) := by
  unfold protF
  simp only [List.length_cons, protG, h, if_neg hn]
  rw [protG_congr try? tok cs.length ((c :: cs).drop n).length ((c :: cs).drop n)
    (bs ++ [(c :: cs).take n]) (by simp [List.length_drop]; omega) (Nat.le_refl _)]

theorem protF_eq_self (trig : Char → Bool)
    {try? : List Char → Option Nat} {tok : Nat → List Char}
    (htry : ∀ c t, trig c = false → try? (c :: t) = none) :
    ∀ s bs, (∀ c ∈ s, trig c = false) → protF try? tok s bs = (s, bs) := by
  intro s
  induction s with
  | nil => intro bs _; rfl
  | cons c cs ih =>
    intro bs hs
    rw [protF_cons_none (htry c cs (hs c (by simp)))]
    rw [ih bs (fun d hd => hs d (by simp [hd]))]

theorem findG_congr (try? : List Char → Option (Nat × List Char)) :
    ∀ (f g : Nat) (s : List Char), s.length ≤ f → s.length ≤ g →
      findG try? f s = findG try? g s := by
  intro f
  induction f with
  | zero =>
    intro g s hf _
    have hs : s = [] := List.eq_nil_of_length_eq_zero (Nat.le_zero.mp hf)
    subst hs
    cases g <;> rfl
  | succ f ih =>
    intro g s hf hg
    cases s with
    | nil => cases g <;> rfl
    | cons c cs =>
      cases g with
      | zero => simp at hg
      | succ g =>
        simp only [findG]
        cases h : try? (c :: cs) with
        | none =>
          rw [ih g cs (by simp at hf; omega) (by simp at hg; omega)]
        | some p =>
          obtain ⟨n, r⟩ := p
          dsimp only
          by_cases hn : n = 0
          · subst hn
            rw [if_pos rfl, if_pos rfl]
            rw [ih g cs (by simp at hf; omega) (by simp at hg; omega)]
          · rw [if_neg hn, if_neg hn]
            rw [ih g ((c :: cs).drop n)
              (by simp [List.length_drop] at hf ⊢; omega)
              (by simp [List.length_drop] at hg ⊢; omega)]

theorem findF_cons_none {try? : List Char → Option (Nat × List Char)}
    {c : Char} {cs : List Char} (h : try? (c :: cs) = none) :
    findF try? (c :: cs) = findF try? cs := by
  unfold findF
  simp only [List.length_cons, findG, h]

theorem findF_cons_some {try? : List Char → Option (Nat × List Char)}
    {c : Char} {cs : List Char} {n : Nat} {g : List Char}
    (h : try? (c :: cs) = some (n, g)) (hn : n ≠ 0) :
    findF try? (c :: cs) = g :: findF try? ((c :: cs).drop n) := by
  unfold findF
  simp only [List.length_cons, findG, h, if_neg hn]
  congr 1
  apply findG_congr
  · simp [List.length_drop]; omega
  · exact Nat.le_refl _

theorem findF_append_skip (trig : Char → Bool)
    {try? : List Char → Option (Nat × List Char)}
    (htry : ∀ c t, trig c = false → try? (c :: t) = none) :
    ∀ (a b : List Char), (∀ c ∈ a, trig c = false) →
      findF try? (a ++ b) = findF try? b := by
  intro a
  induction a with
  | nil => intro b _; rfl
  | cons c a ih =>
    intro b ha
    rw [List.cons_append, findF_cons_none (htry c (a ++ b) (ha c (by simp)))]
    rw [ih b (fun d hd => ha d (by simp [hd]))]

theorem replG_congr (pat rep : List Char) (hp : pat ≠ []) :
    ∀ (f g : Nat) (s : List Char), s.length ≤ f → s.length ≤ g →
      replG pat rep f s = replG pat rep g s := by
  have hlen : 1 ≤ pat.length := List.length_pos.mpr hp
  intro f
  induction f with
  | zero =>
    intro g s hf _
    have hs : s = [] := List.eq_nil_of_length_eq_zero (Nat.le_zero.mp hf)
    subst hs
    cases g <;> rfl
  | succ f ih =>
    intro g s hf hg
    cases s with
    | nil => cases g <;> rfl
    | cons c cs =>
      cases g with
      | zero => simp at hg
      | succ g =>
        simp only [replG]
        by_cases h : pat.isPrefixOf (c :: cs)
        · simp only [if_pos h]
          rw [ih g ((c :: cs).drop pat.length)
            (by simp [List.length_drop] at hf ⊢; omega)
            (by simp [List.length_drop] at hg ⊢; omega)]
        · simp only [if_neg h]
          rw [ih g cs (by simp at hf; omega) (by simp at hg; omega)]

theorem replaceAll_cons_of_ne {pat : List Char} (rep : List Char)
    {c : Char} {cs : List Char} (hp : pat ≠ [])
    (h : pat.isPrefixOf (c :: cs) = false) :
    replaceAll pat rep (c :: cs) = c :: replaceAll pat rep cs := by
  unfold replaceAll
  simp only [if_neg hp, List.length_cons, replG, h, Bool.false_eq_true,
    if_false]

theorem replaceAll_left {pat : List Char} (rep t : List Char)
    (hp : pat ≠ []) :
    replaceAll pat rep (pat ++ t) = rep ++ replaceAll pat rep t := by
  obtain ⟨p0, p', rfl⟩ : ∃ p0 p', pat = p0 :: p' := by
    cases pat with
    | nil => exact absurd rfl hp
    | cons a b => exact ⟨a, b, rfl⟩
  have hpre : (p0 :: p').isPrefixOf (p0 :: (p' ++ t)) = true := by
    rw [show p0 :: (p' ++ t) = (p0 :: p') ++ t from rfl]
    simp [List.isPrefixOf_iff_prefix]
  have hdrop : (p0 :: (p' ++ t)).drop (p0 :: p').length = t := by
    rw [show (p0 :: p').length = p'.length + 1 from rfl]
    rw [List.drop_succ_cons]
    exact List.drop_left p' t
  unfold replaceAll
  simp only [if_neg hp]
  rw [show (p0 :: p') ++ t = p0 :: (p' ++ t) from rfl]
  rw [show (p0 :: (p' ++ t)).length = (p' ++ t).length + 1 from rfl]
  simp only [replG, hpre, if_true]
  rw [hdrop]
  congr 1
  apply replG_congr _ _ hp
  · simp
  · exact Nat.le_refl _

theorem replaceAll_append_skip {p0 : Char} {p' : List Char}
    (rep : List Char) :
    ∀ (a b : List Char), (∀ c ∈ a, ¬(c = p0)) →
      replaceAll (p0 :: p') rep (a ++ b) = a ++ replaceAll (p0 :: p') rep b := by
  intro a
  induction a with
  | nil => intro b _; rfl
  | cons c a ih =>
    intro b ha
    rw [List.cons_append,
      replaceAll_cons_of_ne rep (by simp)
        (by simp only [List.isPrefixOf, Bool.and_eq_false_iff]
            exact Or.inl (by simpa using fun h => (ha c (by simp)) h.symm))]
    rw [ih b (fun d hd => ha d (by simp [hd]))]
    rfl

theorem replaceAll_eq_self {p0 : Char} {p' : List Char} (rep : List Char)
    (s : List Char) (hs : ∀ c ∈ s, ¬(c = p0)) :
    replaceAll (p0 :: p') rep s = s := by
  have h0 : replaceAll (p0 :: p') rep [] = [] := rfl
  have h := @replaceAll_append_skip p0 p' rep s [] hs
  rw [List.append_nil] at h
  rw [h, h0, List.append_nil]

/-! ### Matcher trigger lemmas: no match can start at a non-trigger
character. -/

theorem tryFence4_none {c : Char} {t : List Char} (h : ¬(c = '\x60')) :
    tryFence4 (c :: t) = none := by
  simp [tryFence4, h]

theorem tryFence3_none {c : Char} {t : List Char} (h : ¬(c = '\x60')) :
    tryFence3 (c :: t) = none := by
  simp [tryFence3, h]

theorem tryInlineCode_none {c : Char} {t : List Char} (h : ¬(c = '\x60')) :
    tryInlineCode (c :: t) = none := by
  simp [tryInlineCode, h]

theorem tryInlineCodePlus_none {c : Char} {t : List Char} (h : ¬(c = '\x60')) :
    tryInlineCodePlus (c :: t) = none := by
  simp [tryInlineCodePlus, h]

theorem tryLatexRaw_none {c : Char} {t : List Char} (h : ¬(c = '\x60')) :
    tryLatexRaw (c :: t) = none := by
  simp [tryLatexRaw, h]

theorem tryMath2_none {c : Char} {t : List Char} (h : ¬(c = '$')) :
    tryMath2 (c :: t) = none := by
  simp [tryMath2, h]

theorem tryMath1_none {c : Char} {t : List Char} (h : ¬(c = '$')) :
    tryMath1 (c :: t) = none := by
  simp [tryMath1, h]

theorem tryMath1Plus_none {c : Char} {t : List Char} (h : ¬(c = '$')) :
    tryMath1Plus (c :: t) = none := by
  simp [tryMath1Plus, h]

theorem tryHighlight_none {c : Char} {t : List Char} (h : ¬(c = '=')) :
    tryHighlight (c :: t) = none := by
  cases t with
  | nil => rfl
  | cons c2 r => simp [tryHighlight, h]

theorem tryStrike_none {c : Char} {t : List Char} (h : ¬(c = '~')) :
    tryStrike (c :: t) = none := by
  cases t with
  | nil => rfl
  | cons c2 r => simp [tryStrike, h]

theorem trySuper_none {c : Char} {t : List Char} (h : ¬(c = '^')) :
    trySuper (c :: t) = none := by
  simp [trySuper, h]

theorem trySubscript_none {c : Char} {t : List Char} (h : ¬(c = '~')) :
    trySubscript (c :: t) = none := by
  simp [trySubscript, h]

theorem trySc_none {c : Char} {t : List Char} (h : ¬(c = ':')) :
    trySc (c :: t) = none := by
  simp [trySc, h]

theorem tryU_none {c : Char} {t : List Char} (h : ¬(c = ':')) :
    tryU (c :: t) = none := by
  simp [tryU, h]

theorem varAnyCore_none {c : Char} {t : List Char} (h : ¬(c = '\x7b')) :
    varAnyCore (c :: t) = none := by
  cases t with
  | nil => rfl
  | cons c2 r => simp [varAnyCore, h]

theorem tryVarNamed_none {nm repl : List Char} {c : Char} {t : List Char}
    (h : ¬(c = '\x7b')) : tryVarNamed nm repl (c :: t) = none := by
  cases t with
  | nil => rfl
  | cons c2 r => simp [tryVarNamed, h]

theorem tryAlertBegin_none {c : Char} {t : List Char} (h : ¬(c = '_')) :
    tryAlertBegin (c :: t) = none := by
  unfold tryAlertBegin
  rw [if_neg]
  simp only [List.isPrefixOf, Bool.and_eq_true, beq_iff_eq]
  intro hh
  exact h hh.1.symm

theorem tryAlertEnd_none {c : Char} {t : List Char} (h : ¬(c = '_')) :
    tryAlertEnd (c :: t) = none := by
  unfold tryAlertEnd
  rw [if_neg]
  simp only [List.isPrefixOf, Bool.and_eq_true, beq_iff_eq]
  intro hh
  exact h hh.1.symm

/-! ### Protection-pass identity on documents without backticks or
dollars. -/

theorem protect_eq_self (s : List Char)
    (hs : ∀ c ∈ s, ((c = '\x60' : Bool) || (c = '$' : Bool)) = false) :
    protect_code_and_math_blocks s = (s, []) := by
  have trig := fun (c : Char) => ((c = '\x60' : Bool) || (c = '$' : Bool))
  have h1 := @protF_eq_self (fun c => ((c = '\x60' : Bool) || (c = '$' : Bool))) tryFence4 protectTok
    (fun c t hc => tryFence4_none (by simpa using (Bool.or_eq_false_iff.mp hc).1)) s [] hs
  have h2 := @protF_eq_self (fun c => ((c = '\x60' : Bool) || (c = '$' : Bool))) tryFence3 protectTok
    (fun c t hc => tryFence3_none (by simpa using (Bool.or_eq_false_iff.mp hc).1)) s [] hs
  have h3 := @protF_eq_self (fun c => ((c = '\x60' : Bool) || (c = '$' : Bool))) tryInlineCode protectTok
    (fun c t hc => tryInlineCode_none (by simpa using (Bool.or_eq_false_iff.mp hc).1)) s [] hs
  have h4 := @protF_eq_self (fun c => ((c = '\x60' : Bool) || (c = '$' : Bool))) tryMath2 protectTok
    (fun c t hc => tryMath2_none (by simpa using (Bool.or_eq_false_iff.mp hc).2)) s [] hs
  have h5 := @protF_eq_self (fun c => ((c = '\x60' : Bool) || (c = '$' : Bool))) tryMath1 protectTok
    (fun c t hc => tryMath1_none (by simpa using (Bool.or_eq_false_iff.mp hc).2)) s [] hs
  unfold protect_code_and_math_blocks
  rw [h1]
  dsimp only
  rw [h2]
  dsimp only
  rw [h3]
  dsimp only
  rw [h4]
  dsimp only
  rw [h5]

theorem restore_nil (s : List Char) : restore_protected_blocks s [] = s := rfl

theorem protect_restore_roundtrip (s : List Char)
    (hs : ∀ c ∈ s, ((c = '\x60' : Bool) || (c = '$' : Bool)) = false) :
    restore_protected_blocks (protect_code_and_math_blocks s).1
      (protect_code_and_math_blocks s).2 = s := by
  rw [protect_eq_self s hs]
  rfl

/-! ### Claim theorems -/

/-- C1: the claim states that for every input document, restoring
immediately after protecting yields the original document byte-for-byte.
The code violates this on the ordinary document `` $`x`$ ``: the inline
math pass protects a span that contains the placeholder of the inline
code pass, and `restore_protected_blocks` replaces placeholders in
increasing index order, so the nested placeholder `0` is reinserted after
its own replacement pass has already run and survives into the output.
This theorem evaluates the code at the failing input. -/
theorem C1_roundtrip_fails_at_nested_spans :
    restore_protected_blocks (protect_code_and_math_blocks "$\x60x\x60$".data).1
        (protect_code_and_math_blocks "$\x60x\x60$".data).2 =
      "$__PROTECTED_PLACEHOLDER_0__$".data ∧
    ¬(restore_protected_blocks
        (protect_code_and_math_blocks "$\x60x\x60$".data).1
        (protect_code_and_math_blocks "$\x60x\x60$".data).2 =
      "$\x60x\x60$".data) := by
  decide

/-- C3: the claim states that after `escape_signs` every `%` inside a
protected code or math span is left unescaped and every `%` outside is
escaped.  The code violates it on `` $`x%`$ ``: the inline-math pass
protects a span containing the inline-code placeholder, the restore loop
runs in increasing index order, and the code span — with its `%` — is
lost from the output entirely (neither left unescaped nor escaped).
This theorem evaluates the code at the failing input. -/
theorem C3_escape_signs_loses_protected_percent :
    escape_signs "$\x60x%\x60$".data ["%".data] =
      "$__ESCAPE_PROTECTED_0__$".data ∧
    '%' ∈ "$\x60x%\x60$".data ∧
    ¬('%' ∈ escape_signs "$\x60x%\x60$".data ["%".data]) := by
  decide

/-- C4: in document-footnote mode, a reference `[^a]` with definition
`[^a]: Hello` becomes `\footnote{Hello}`, an inline footnote `^[World]`
becomes `\footnote{World}`, and the unresolved reference `[^missing]`
remains literal, with the definition line removed from the document. -/
theorem C4_footnote_conversion_cases :
    convert_markdown_footnotes_to_latex
        "A[^a] B^[World] C[^missing]\n\n[^a]: Hello\n".data =
      "A\\footnote\x7bHello\x7d B\\footnote\x7bWorld\x7d C[^missing]\n\n".data := by
  decide

/-- C2: if the artifact for a diagram's hash is absent, a successful run
renders it (one external invocation), populates the cache and emits the
embed reference; with the cache thus warmed, a second run on the same
source makes zero renderer invocations (whatever the renderer oracle
would do) and emits the same embed reference. -/
theorem C2_mermaid_warm_cache_no_render (mdHex : List Char → List Char)
    (oc : MermaidOutcome) (rawCode : List Char) (cache : List (List Char))
    (hmiss : ¬(mermaidName mdHex rawCode ∈ cache)) :
    replace_mermaid_block mdHex (.runs true true) rawCode cache =
      ⟨mermaidEmbed (mermaidName mdHex rawCode),
        cache ++ [mermaidName mdHex rawCode], 1⟩ ∧
    replace_mermaid_block mdHex oc rawCode
        (cache ++ [mermaidName mdHex rawCode]) =
      ⟨mermaidEmbed (mermaidName mdHex rawCode),
        cache ++ [mermaidName mdHex rawCode], 0⟩ := by
  constructor
  · simp [replace_mermaid_block, hmiss]
  · have hmem : mermaidName mdHex rawCode ∈
        cache ++ [mermaidName mdHex rawCode] := by simp
    simp [replace_mermaid_block, hmem]

/-- Witness for C2 at a concrete hash function, diagram source, empty
cache and a renderer oracle that would fail on the second run. -/
theorem C2_mermaid_warm_cache_no_render_witness :
    replace_mermaid_block (fun _ => "0123456789abcdef".data)
        (.runs true true) "graph TD".data [] =
      ⟨mermaidEmbed (mermaidName (fun _ => "0123456789abcdef".data)
          "graph TD".data),
        [mermaidName (fun _ => "0123456789abcdef".data) "graph TD".data], 1⟩ ∧
    replace_mermaid_block (fun _ => "0123456789abcdef".data) .excepts
        "graph TD".data
        [mermaidName (fun _ => "0123456789abcdef".data) "graph TD".data] =
      ⟨mermaidEmbed (mermaidName (fun _ => "0123456789abcdef".data)
          "graph TD".data),
        [mermaidName (fun _ => "0123456789abcdef".data) "graph TD".data], 0⟩ :=
  C2_mermaid_warm_cache_no_render (fun _ => "0123456789abcdef".data)
    .excepts "graph TD".data [] (by decide)

/-- C8 counterexample: the claim states that an unavailable emoji data
source (failing query or absent table) makes the mapper a no-op that does
not raise.  When the `kpsewhich` query fails, `subprocess.check_output`
raises with no handler in `process_emojis`, so the mapper aborts instead
of returning its input. -/
theorem C8_query_failure_raises :
    process_emojis .queryFails "hi".data = .error () ∧
    ¬(process_emojis .queryFails "hi".data = .ok "hi".data) := by
  refine ⟨rfl, fun h => ?_⟩
  exact Except.noConfusion h

/-- C8 amended: when the emoji table file is absent (or the query returns
an empty path) the mapper performs no substitution and does not raise; it
returns its input unchanged whenever the protection round-trip is
faithful for that input. -/
theorem C8_table_absent_is_noop (content : List Char)
    (hrt : restore_protected_blocks (protect_code_and_math_blocks content).1
        (protect_code_and_math_blocks content).2 = content) :
    process_emojis .tableAbsent content = .ok content := by
  unfold process_emojis
  rcases hpc : protect_code_and_math_blocks content with ⟨c1, bs⟩
  rw [hpc] at hrt
  simp only [hpc]
  rw [hrt]

/-- Witness for C8 at the concrete document `hi`. -/
theorem C8_table_absent_is_noop_witness :
    restore_protected_blocks (protect_code_and_math_blocks "hi".data).1
        (protect_code_and_math_blocks "hi".data).2 = "hi".data ∧
    process_emojis .tableAbsent "hi".data = .ok "hi".data :=
  ⟨by decide, C8_table_absent_is_noop "hi".data (by decide)⟩

/-- C9 counterexample: the claim states that every blank content line
(and every line shorter than the fence indentation) passes through to the
captured body byte-identically.  The whitespace-only line `" "` under
fence indentation `"  "` is both blank and shorter than the prefix, yet
the capture cleaning maps it to the empty line, not to itself. -/
theorem C9_blank_line_not_preserved :
    (pyStrip " ".data).isEmpty = true ∧
    " ".data.length < "  ".data.length ∧
    cleanLine "  ".data " ".data = [] ∧
    ¬(cleanLine "  ".data " ".data = " ".data) := by
  decide

/-- C9 amended: the capture loop of the container parser maps each
non-fence content line as follows before the closing fence ends the
block: a line that starts with the opening fence's indentation prefix and
is strictly longer has exactly the prefix stripped; otherwise a
whitespace-only line becomes the empty line; every other line (including
lines shorter than the prefix) passes through unmodified. -/
theorem C9_capture_line_cleaning (ind : List Char) (ls : List (List Char))
    (hnf : ∀ l ∈ ls, matchOpenFence l = none ∧ matchCloseFence l = false) :
    captureBlock ind (ls ++ [":::".data]) 1 =
      (ls.map (fun l =>
        if ind.isPrefixOf l ∧ ind.length < l.length then l.drop ind.length
        else if (pyStrip l).isEmpty then [] else l), []) := by
  induction ls with
  | nil =>
    have hopen : matchOpenFence ":::".data = none := by decide
    have hclose : matchCloseFence ":::".data = true := by decide
    simp [captureBlock, hopen, hclose]
  | cons l ls ih =>
    have h := hnf l (by simp)
    rw [List.cons_append]
    simp only [captureBlock, h.1, h.2, Option.isSome_none, Bool.false_eq_true,
      if_false]
    rw [ih (fun d hd => hnf d (by simp [hd]))]
    simp [cleanLine]

/-- Witness for C9 at a concrete indentation and body. -/
theorem C9_capture_line_cleaning_witness :
    (∀ l ∈ [" x".data, " ".data],
      matchOpenFence l = none ∧ matchCloseFence l = false) ∧
    captureBlock "  ".data ([" x".data, " ".data] ++ [":::".data]) 1 =
      ([" x".data, []], []) :=
  ⟨by decide,
    C9_capture_line_cleaning "  ".data [" x".data, " ".data] (by decide)⟩

/-- C7 counterexample: the claim states that with `execute` and
`no-cache` the runner re-executes and the cache artifact afterwards
contains the fresh result (overwriting).  For a text-output block the
write-back is guarded by `use_cache`, which `no-cache` sets false, so the
stale artifact content survives the fresh execution. -/
theorem C7_no_cache_leaves_stale_artifact :
    (execute_python_block (fun _ => "hhhhhhhhhhhh".data)
        (.success "1\n".data false) ".execute .no-cache".data
        "print(1)".data
        ⟨[(pyOutputName (fun _ => "hhhhhhhhhhhh".data) "print(1)".data,
            "stale".data)], []⟩).2.2 = 1 ∧
    dictLookup
        (execute_python_block (fun _ => "hhhhhhhhhhhh".data)
          (.success "1\n".data false) ".execute .no-cache".data
          "print(1)".data
          ⟨[(pyOutputName (fun _ => "hhhhhhhhhhhh".data) "print(1)".data,
              "stale".data)], []⟩).2.1.texts
        (pyOutputName (fun _ => "hhhhhhhhhhhh".data) "print(1)".data) =
      some "stale".data ∧
    ¬("stale".data = pyStrip "1\n".data) := by
  decide

/-- C7 amended: for a text-output block carrying `execute` and
`no-cache`, the runner re-executes even when a cached artifact for the
source hash exists (bypassing the cache), but it does not overwrite the
cached text artifact: the cache is left exactly as it was. -/
theorem C7_no_cache_reexecutes_without_overwriting
    (mdHex : List Char → List Char) (oc : ExecOutcome)
    (propsStr code : List Char) (st : PyCache)
    (hex : ".execute".data ∈ splitWs propsStr)
    (hnc : ".no-cache".data ∈ splitWs propsStr)
    (hm1 : containsSub "matplotlib".data code = false)
    (hm2 : containsSub "plt.".data code = false)
    (hart : ¬(dictLookup st.texts (pyOutputName mdHex code) = none)) :
    (execute_python_block mdHex oc propsStr code st).2.2 = 1 ∧
    (execute_python_block mdHex oc propsStr code st).2.1.texts = st.texts := by
  unfold execute_python_block
  rw [if_neg (by simp [hex])]
  simp only [hm1, hm2, Bool.false_eq_true, false_or, if_false, or_self]
  rw [if_neg (by simp [hnc])]
  cases oc <;> simp [hnc]

/-- Witness for C7 at a concrete block, oracle and warm cache. -/
theorem C7_no_cache_reexecutes_without_overwriting_witness :
    (".execute".data ∈ splitWs ".execute .no-cache".data) ∧
    (".no-cache".data ∈ splitWs ".execute .no-cache".data) ∧
    (execute_python_block (fun _ => "hhhhhhhhhhhh".data) .timedOut
        ".execute .no-cache".data "print(1)".data
        ⟨[(pyOutputName (fun _ => "hhhhhhhhhhhh".data) "print(1)".data,
            "stale".data)], []⟩).2.2 = 1 ∧
    (execute_python_block (fun _ => "hhhhhhhhhhhh".data) .timedOut
        ".execute .no-cache".data "print(1)".data
        ⟨[(pyOutputName (fun _ => "hhhhhhhhhhhh".data) "print(1)".data,
            "stale".data)], []⟩).2.1.texts =
      [(pyOutputName (fun _ => "hhhhhhhhhhhh".data) "print(1)".data,
          "stale".data)] :=
  ⟨by decide, by decide,
    (C7_no_cache_reexecutes_without_overwriting
      (fun _ => "hhhhhhhhhhhh".data) .timedOut ".execute .no-cache".data
      "print(1)".data
      ⟨[(pyOutputName (fun _ => "hhhhhhhhhhhh".data) "print(1)".data,
          "stale".data)], []⟩
      (by decide) (by decide) (by decide) (by decide) (by decide)).1,
    (C7_no_cache_reexecutes_without_overwriting
      (fun _ => "hhhhhhhhhhhh".data) .timedOut ".execute .no-cache".data
      "print(1)".data
      ⟨[(pyOutputName (fun _ => "hhhhhhhhhhhh".data) "print(1)".data,
          "stale".data)], []⟩
      (by decide) (by decide) (by decide) (by decide) (by decide)).2⟩

theorem takeWhile_append_cons (p : Char → Bool) (x : List Char) (b : Char)
    (y : List Char) (hx : ∀ c ∈ x, p c = true) (hb : p b = false) :
    (x ++ b :: y).takeWhile p = x := by
  induction x with
  | nil => simp [List.takeWhile, hb]
  | cons c cs ih =>
    rw [List.cons_append]
    rw [List.takeWhile_cons_of_pos (hx c (by simp))]
    rw [ih (fun d hd => hx d (by simp [hd]))]

/-- C10 counterexample: the claim asserts that any `~~x~~` with `x`
non-empty and tilde-free becomes exactly `\mdstrikethrough{x}`.  With
`x = a^b^c` the later superscript pass rewrites inside the emitted
strikethrough argument, so the result is not `\mdstrikethrough{x}`
(though the double tilde is still never parsed as subscripts). -/
theorem C10_strike_not_plain_for_superscript_content :
    apply_markdown_formatting_math_safe "~~a^b^c~~".data =
      "\\mdstrikethrough\x7ba\\textsuperscript\x7bb\x7dc\x7d".data ∧
    ¬("a^b^c".data = []) ∧
    (∀ c ∈ "a^b^c".data, ¬(c = '~')) ∧
    ¬(apply_markdown_formatting_math_safe "~~a^b^c~~".data =
      "\\mdstrikethrough\x7ba^b^c\x7d".data) := by
  decide

/-- C10 amended: the strikethrough substitution runs before the
subscript substitution, so a line consisting of `~~x~~` with `x`
non-empty and free of every other formatting or protection delimiter
(`~ = ^ : [ ` $`) becomes exactly `\mdstrikethrough{x}`; in particular
the double-tilde span is never parsed as two subscripts. -/
theorem C10_strike_before_subscript (x : List Char) (hx : ¬(x = []))
    (hc : ∀ c ∈ x, ¬(c = '~' ∨ c = '=' ∨ c = '^' ∨ c = ':' ∨ c = '['
      ∨ c = '\x60' ∨ c = '$')) :
    apply_markdown_formatting_math_safe ('~' :: '~' :: (x ++ "~~".data)) =
      "\\mdstrikethrough\x7b".data ++ x ++ ['\x7d'] := by
  have e2 : ("~~".data : List Char) = ['~', '~'] := rfl
  have hxc : ∀ c ∈ x, ¬(c = '~') ∧ ¬(c = '=') ∧ ¬(c = '^') ∧ ¬(c = ':')
      ∧ ¬(c = '[') ∧ ¬(c = '\x60') ∧ ¬(c = '$') := by
    intro c hcm
    have := hc c hcm
    refine ⟨?_, ?_, ?_, ?_, ?_, ?_, ?_⟩ <;> intro h <;> exact this (by simp [h])
  have hline : ∀ c ∈ '~' :: '~' :: (x ++ "~~".data),
      ((c = '\x60' : Bool) || (c = '$' : Bool)) = false := by
    intro c hcm
    rw [e2] at hcm
    simp only [List.mem_cons, List.mem_append] at hcm
    rcases hcm with rfl | rfl | hcm | rfl | rfl | hcm
    · decide
    · decide
    · simp [(hxc c hcm).2.2.2.2.2.1, (hxc c hcm).2.2.2.2.2.2]
    · decide
    · decide
    · simp at hcm
  have hrepl : ∀ c ∈ "\\mdstrikethrough\x7b".data ++ x ++ ['\x7d'],
      ¬(c = '~') ∧ ¬(c = '=') ∧ ¬(c = '^') ∧ ¬(c = ':') := by
    intro c hcm
    simp only [List.mem_append, List.mem_singleton] at hcm
    rcases hcm with (hcm | hcm) | rfl
    · revert c
      decide
    · exact ⟨(hxc c hcm).1, (hxc c hcm).2.1, (hxc c hcm).2.2.1,
        (hxc c hcm).2.2.2.1⟩
    · decide
  have hstrike : tryStrike ('~' :: '~' :: (x ++ "~~".data)) =
      some (x.length + 4, "\\mdstrikethrough\x7b".data ++ x ++ ['\x7d']) := by
    rw [e2]
    simp only [tryStrike]
    rw [takeWhile_append_cons _ x '~' ['~']
      (fun c hcm => by simp [(hxc c hcm).1]) (by decide)]
    rw [List.drop_left x ['~', '~']]
    have h1 : 1 ≤ x.length := List.length_pos.mpr hx
    simp [h1, twoCharAt]
  have hhl : subF tryHighlight ('~' :: '~' :: (x ++ "~~".data)) =
      '~' :: '~' :: (x ++ "~~".data) := by
    apply subF_eq_self (fun c => (c = '=' : Bool))
      (fun c t hct => tryHighlight_none (by simpa using hct))
    intro c hcm
    rw [e2] at hcm
    simp only [List.mem_cons, List.mem_append] at hcm
    rcases hcm with rfl | rfl | hcm | rfl | rfl | hcm
    · decide
    · decide
    · simp [(hxc c hcm).2.1]
    · decide
    · decide
    · simp at hcm
  have hst : subF tryStrike ('~' :: '~' :: (x ++ "~~".data)) =
      "\\mdstrikethrough\x7b".data ++ x ++ ['\x7d'] := by
    rw [subF_cons_some hstrike (by omega)]
    have hlen : ('~' :: '~' :: (x ++ "~~".data)).length = x.length + 4 := by
      simp [e2]
    have hdropped : ('~' :: '~' :: (x ++ "~~".data)).drop (x.length + 4) = [] := by
      rw [← hlen]
      exact List.drop_length _
    rw [hdropped]
    have hnil : subF tryStrike ([] : List Char) = [] := rfl
    rw [hnil, List.append_nil]
  have hsup : subF trySuper ("\\mdstrikethrough\x7b".data ++ x ++ ['\x7d']) =
      "\\mdstrikethrough\x7b".data ++ x ++ ['\x7d'] := by
    apply subF_eq_self (fun c => (c = '^' : Bool))
      (fun c t hct => trySuper_none (by simpa using hct))
    intro c hcm
    simp [(hrepl c hcm).2.2.1]
  have hsub : subF trySubscript ("\\mdstrikethrough\x7b".data ++ x ++ ['\x7d']) =
      "\\mdstrikethrough\x7b".data ++ x ++ ['\x7d'] := by
    apply subF_eq_self (fun c => (c = '~' : Bool))
      (fun c t hct => trySubscript_none (by simpa using hct))
    intro c hcm
    simp [(hrepl c hcm).1]
  have hsc : subF trySc ("\\mdstrikethrough\x7b".data ++ x ++ ['\x7d']) =
      "\\mdstrikethrough\x7b".data ++ x ++ ['\x7d'] := by
    apply subF_eq_self (fun c => (c = ':' : Bool))
      (fun c t hct => trySc_none (by simpa using hct))
    intro c hcm
    simp [(hrepl c hcm).2.2.2]
  have hu : subF tryU ("\\mdstrikethrough\x7b".data ++ x ++ ['\x7d']) =
      "\\mdstrikethrough\x7b".data ++ x ++ ['\x7d'] := by
    apply subF_eq_self (fun c => (c = ':' : Bool))
      (fun c t hct => tryU_none (by simpa using hct))
    intro c hcm
    simp [(hrepl c hcm).2.2.2]
  unfold apply_markdown_formatting_math_safe
  rw [protect_eq_self _ hline]
  dsimp only
  rw [hhl, hst, hsup, hsub, hsc, hu]
  rfl

/-- Witness for C10 at `x = hello`. -/
theorem C10_strike_before_subscript_witness :
    ¬("hello".data = []) ∧
    (∀ c ∈ "hello".data, ¬(c = '~' ∨ c = '=' ∨ c = '^' ∨ c = ':' ∨ c = '['
      ∨ c = '\x60' ∨ c = '$')) ∧
    apply_markdown_formatting_math_safe
        ('~' :: '~' :: ("hello".data ++ "~~".data)) =
      "\\mdstrikethrough\x7b".data ++ "hello".data ++ ['\x7d'] :=
  ⟨by decide, by decide,
    C10_strike_before_subscript "hello".data (by decide) (by decide)⟩

theorem searchF_cons_none {try? : List Char → Option (Nat × List Char)}
    {c : Char} {cs : List Char} (h : try? (c :: cs) = none) :
    searchF try? (c :: cs) = searchF try? cs := by
  unfold searchF
  simp only [List.length_cons, searchG, h]

theorem searchF_append_skip (trig : Char → Bool)
    {try? : List Char → Option (Nat × List Char)}
    (htry : ∀ c t, trig c = false → try? (c :: t) = none) :
    ∀ (a b : List Char), (∀ c ∈ a, trig c = false) →
      searchF try? (a ++ b) = searchF try? b := by
  intro a
  induction a with
  | nil => intro b _; rfl
  | cons c a ih =>
    intro b ha
    rw [List.cons_append, searchF_cons_none (htry c (a ++ b) (ha c (by simp)))]
    rw [ih b (fun d hd => ha d (by simp [hd]))]

theorem dropWhile_ws_eq_self {s : List Char}
    (h : ∀ c ∈ s, isWsChar c = false) : s.dropWhile isWsChar = s := by
  cases s with
  | nil => rfl
  | cons c cs => rw [List.dropWhile_cons_of_neg (by simp [h c (by simp)])]

theorem pyStrip_eq_self {s : List Char}
    (h : ∀ c ∈ s, isWsChar c = false) : pyStrip s = s := by
  unfold pyStrip
  rw [dropWhile_ws_eq_self h]
  rw [dropWhile_ws_eq_self (fun c hc => h c (by simpa using hc))]
  exact List.reverse_reverse s

theorem pyStrip_space_pad {s : List Char} (hs : ¬(s = []))
    (h : ∀ c ∈ s, isWsChar c = false) :
    pyStrip (' ' :: (s ++ [' '])) = s := by
  unfold pyStrip
  rw [List.dropWhile_cons_of_pos (by decide)]
  rw [show s ++ [' '] = s ++ ' ' :: ([] : List Char) from rfl]
  have hdw : (s ++ [' ']).dropWhile isWsChar = s ++ [' '] := by
    cases s with
    | nil => exact absurd rfl hs
    | cons c cs =>
      rw [List.cons_append]
      rw [List.dropWhile_cons_of_neg (by simp [h c (by simp)])]
  rw [hdw]
  rw [List.reverse_append]
  have hrev : ∀ c ∈ s.reverse, isWsChar c = false := by
    intro c hc
    exact h c (by simpa using hc)
  rw [show ([' '] : List Char).reverse = [' '] from rfl]
  rw [List.cons_append]
  rw [List.dropWhile_cons_of_pos (by decide)]
  rw [List.nil_append]
  rw [dropWhile_ws_eq_self hrev]
  exact List.reverse_reverse s

theorem drop_occ1 (N r : List Char) :
    ('\x7b' :: '\x7b' :: (N ++ ('\x7d' :: '\x7d' :: r))).drop (N.length + 4) =
      r := by
  have h1 : '\x7b' :: '\x7b' :: (N ++ ('\x7d' :: '\x7d' :: r)) =
      (('\x7b' :: '\x7b' :: N) ++ ['\x7d', '\x7d']) ++ r := by simp
  have h2 : (('\x7b' :: '\x7b' :: N) ++ ['\x7d', '\x7d']).length =
      N.length + 4 := by simp
  rw [h1, ← h2]
  exact List.drop_left _ _

theorem drop_occ2 (N r : List Char) :
    ('\x7b' :: '\x7b' :: (' ' :: (N ++ (' ' :: '\x7d' :: '\x7d' :: r)))).drop
        (N.length + 6) = r := by
  have h1 : '\x7b' :: '\x7b' :: (' ' :: (N ++ (' ' :: '\x7d' :: '\x7d' :: r))) =
      (('\x7b' :: '\x7b' :: ' ' :: N) ++ [' ', '\x7d', '\x7d']) ++ r := by simp
  have h2 : (('\x7b' :: '\x7b' :: ' ' :: N) ++ [' ', '\x7d', '\x7d']).length =
      N.length + 6 := by simp
  rw [h1, ← h2]
  exact List.drop_left _ _

theorem varAnyCore_occ1 {N : List Char} (r : List Char) (hn : ¬(N = []))
    (hc : ∀ c ∈ N, ¬(c = '\x7d')) :
    varAnyCore ('\x7b' :: '\x7b' :: (N ++ ('\x7d' :: '\x7d' :: r))) =
      some (N.length + 4, N) := by
  simp only [varAnyCore]
  rw [takeWhile_append_cons _ N '\x7d' ('\x7d' :: r)
    (fun c hcm => by simp [hc c hcm]) (by decide)]
  rw [List.drop_left N ('\x7d' :: '\x7d' :: r)]
  have h1 : 1 ≤ N.length := List.length_pos.mpr hn
  simp [h1, twoCharAt]

theorem varAnyCore_occ2 {N : List Char} (r : List Char)
    (hc : ∀ c ∈ N, ¬(c = '\x7d')) :
    varAnyCore ('\x7b' :: '\x7b' :: (' ' :: (N ++ (' ' :: '\x7d' :: '\x7d' :: r)))) =
      some (N.length + 6, ' ' :: (N ++ [' '])) := by
  simp only [varAnyCore]
  have hsp : N ++ (' ' :: '\x7d' :: '\x7d' :: r) =
      (N ++ [' ']) ++ ('\x7d' :: '\x7d' :: r) := by simp
  rw [hsp]
  rw [show (' ' :: ((N ++ [' ']) ++ ('\x7d' :: '\x7d' :: r))) =
      ((' ' :: (N ++ [' '])) ++ ('\x7d' :: '\x7d' :: r)) from rfl]
  rw [takeWhile_append_cons _ (' ' :: (N ++ [' '])) '\x7d' ('\x7d' :: r)
    (fun c hcm => by
      simp only [List.mem_cons, List.mem_append, List.mem_singleton] at hcm
      rcases hcm with rfl | hcm | hcm | hcm
      · decide
      · simp [hc c hcm]
      · subst hcm
        decide
      · simp at hcm)
    (by decide)]
  rw [List.drop_left (' ' :: (N ++ [' '])) ('\x7d' :: '\x7d' :: r)]
  have h2 : (' ' :: (N ++ [' '])).length = N.length + 2 := by simp
  simp [twoCharAt, h2]

theorem protF_append_skip (trig : Char → Bool)
    {try? : List Char → Option Nat} {tok : Nat → List Char}
    (htry : ∀ c t, trig c = false → try? (c :: t) = none) :
    ∀ (a b : List Char) (bs : List (List Char)), (∀ c ∈ a, trig c = false) →
      protF try? tok (a ++ b) bs =
        (a ++ (protF try? tok b bs).1, (protF try? tok b bs).2) := by
  intro a
  induction a with
  | nil => intro b bs _; rfl
  | cons c a ih =>
    intro b bs ha
    rw [List.cons_append, protF_cons_none (htry c (a ++ b) (ha c (by simp)))]
    rw [ih b bs (fun d hd => ha d (by simp [hd]))]
    rfl

theorem protF_cons_none_m {try? : List Char → Option Nat}
    {tok : Nat → List Char} {c : Char} {cs : List Char}
    {bs : List (List Char)} (h : try? (c :: cs) = none) :
    protF try? tok (c :: cs) bs =
      Prod.map (fun t => c :: t) id (protF try? tok cs bs) := by
  rw [protF_cons_none h]
  rcases hP : protF try? tok cs bs with ⟨a, b⟩
  simp [Prod.map]

theorem protF_cons_some_m {try? : List Char → Option Nat}
    {tok : Nat → List Char} {c : Char} {cs : List Char}
    {bs : List (List Char)} {n : Nat} (h : try? (c :: cs) = some n)
    (hn : n ≠ 0) :
    protF try? tok (c :: cs) bs =
      Prod.map (fun t => tok bs.length ++ t) id
        (protF try? tok ((c :: cs).drop n) (bs ++ [(c :: cs).take n])) := by
  rw [protF_cons_some h hn]
  rcases hP : protF try? tok ((c :: cs).drop n) (bs ++ [(c :: cs).take n])
    with ⟨a, b⟩
  simp [Prod.map]

theorem protF_append_skip_m (trig : Char → Bool)
    {try? : List Char → Option Nat} {tok : Nat → List Char}
    (htry : ∀ c t, trig c = false → try? (c :: t) = none)
    (a b : List Char) (bs : List (List Char))
    (ha : ∀ c ∈ a, trig c = false) :
    protF try? tok (a ++ b) bs =
      Prod.map (fun t => a ++ t) id (protF try? tok b bs) := by
  rw [protF_append_skip trig htry a b bs ha]
  rcases hP : protF try? tok b bs with ⟨x, y⟩
  simp [Prod.map]

set_option maxHeartbeats 2000000 in
theorem C6_undefined_variable_reported_once (N : List Char) (hn : ¬(N = []))
    (hx : ¬(N.head? = some 'x'))
    (hc : ∀ c ∈ N, ¬(c = '\x7b' ∨ c = '\x7d' ∨ c = '\x60' ∨ c = '$'
      ∨ c = '_' ∨ isWsChar c = true)) :
    substitute_variables
        ("a \x7b\x7b".data ++
          (N ++ ("\x7d\x7d \x60\x7b\x7bzz\x7d\x7d\x60 \x7b\x7b ".data ++
            (N ++ " \x7d\x7d".data))))
        [("x".data, "1".data)] =
      ("a [UNDEFINED: ".data ++
        (N ++ ("] \x60\x7b\x7bzz\x7d\x7d\x60 [UNDEFINED: ".data ++
          (N ++ "]".data))), [N]) := by
  obtain ⟨n0, N', rfl⟩ : ∃ a l, N = a :: l := by
    cases N with
    | nil => exact absurd rfl hn
    | cons a l => exact ⟨a, l, rfl⟩
  have hcN : ∀ c ∈ n0 :: N', ¬(c = '\x7b') ∧ ¬(c = '\x7d') ∧ ¬(c = '\x60')
      ∧ ¬(c = '$') ∧ ¬(c = '_') ∧ isWsChar c = false := by
    intro c hcm
    have h := hc c hcm
    refine ⟨fun e => h (by simp [e]), fun e => h (by simp [e]),
      fun e => h (by simp [e]), fun e => h (by simp [e]),
      fun e => h (by simp [e]), ?_⟩
    cases hb : isWsChar c with
    | false => rfl
    | true => exact absurd (by simp [hb]) h
  have hn0ws : isWsChar n0 = false := (hcN n0 (by simp)).2.2.2.2.2
  have hn0x : ¬('x' = n0) := by
    intro e
    exact hx (by simp [← e])
  have hn0brace : ¬(n0 = '\x7b') := (hcN n0 (by simp)).1
  have hD : ("a \x7b\x7b".data ++
        ((n0 :: N') ++ ("\x7d\x7d \x60\x7b\x7bzz\x7d\x7d\x60 \x7b\x7b ".data ++
          ((n0 :: N') ++ " \x7d\x7d".data)))) = ('a' :: ' ' :: '\x7b' :: '\x7b' :: ((n0 :: N') ++ ('\x7d' :: '\x7d' :: (' ' :: '\x60' :: ('\x7b' :: '\x7b' :: 'z' :: 'z' :: '\x7d' :: '\x7d' :: ('\x60' :: ' ' :: ('\x7b' :: '\x7b' :: ' ' :: ((n0 :: N') ++ (' ' :: '\x7d' :: '\x7d' :: ([] : List Char)))))))))) := by
    simp
  have hva1 : varAnyCore ('\x7b' :: '\x7b' :: ((n0 :: N') ++ ('\x7d' :: '\x7d' :: (' ' :: '\x60' :: ('\x7b' :: '\x7b' :: 'z' :: 'z' :: '\x7d' :: '\x7d' :: ('\x60' :: ' ' :: ('\x7b' :: '\x7b' :: ' ' :: ((n0 :: N') ++ (' ' :: '\x7d' :: '\x7d' :: ([] : List Char)))))))))) =
      some ((n0 :: N').length + 4, (n0 :: N')) :=
    varAnyCore_occ1 (' ' :: '\x60' :: ('\x7b' :: '\x7b' :: 'z' :: 'z' :: '\x7d' :: '\x7d' :: ('\x60' :: ' ' :: ('\x7b' :: '\x7b' :: ' ' :: ((n0 :: N') ++ (' ' :: '\x7d' :: '\x7d' :: ([] : List Char))))))) (by simp) (fun c h => (hcN c h).2.1)
  have hvazz : varAnyCore ('\x7b' :: '\x7b' :: 'z' :: 'z' :: '\x7d' :: '\x7d' :: ('\x60' :: ' ' :: ('\x7b' :: '\x7b' :: ' ' :: ((n0 :: N') ++ (' ' :: '\x7d' :: '\x7d' :: ([] : List Char)))))) = some (6, ['z', 'z']) :=
    @varAnyCore_occ1 ['z', 'z'] ('\x60' :: ' ' :: ('\x7b' :: '\x7b' :: ' ' :: ((n0 :: N') ++ (' ' :: '\x7d' :: '\x7d' :: ([] : List Char))))) (by decide) (by decide)
  have hva2 : varAnyCore ('\x7b' :: '\x7b' :: ' ' :: ((n0 :: N') ++ (' ' :: '\x7d' :: '\x7d' :: ([] : List Char)))) =
      some ((n0 :: N').length + 6, ' ' :: ((n0 :: N') ++ [' '])) :=
    varAnyCore_occ2 ([] : List Char) (fun c h => (hcN c h).2.1)
  have hfind : findF varAnyCore ('a' :: ' ' :: '\x7b' :: '\x7b' :: ((n0 :: N') ++ ('\x7d' :: '\x7d' :: (' ' :: '\x60' :: ('\x7b' :: '\x7b' :: 'z' :: 'z' :: '\x7d' :: '\x7d' :: ('\x60' :: ' ' :: ('\x7b' :: '\x7b' :: ' ' :: ((n0 :: N') ++ (' ' :: '\x7d' :: '\x7d' :: ([] : List Char)))))))))) =
      [(n0 :: N'), ['z', 'z'], ' ' :: ((n0 :: N') ++ [' '])] := by
    rw [findF_cons_none (varAnyCore_none (by decide))]
    rw [findF_cons_none (varAnyCore_none (by decide))]
    rw [findF_cons_some hva1 (by omega)]
    rw [drop_occ1]
    rw [findF_cons_none (varAnyCore_none (by decide))]
    rw [findF_cons_none (varAnyCore_none (by decide))]
    rw [findF_cons_some hvazz (by omega)]
    rw [show List.drop 6 ('\x7b' :: '\x7b' :: 'z' :: 'z' :: '\x7d' :: '\x7d' :: ('\x60' :: ' ' :: ('\x7b' :: '\x7b' :: ' ' :: ((n0 :: N') ++ (' ' :: '\x7d' :: '\x7d' :: ([] : List Char)))))) = ('\x60' :: ' ' :: ('\x7b' :: '\x7b' :: ' ' :: ((n0 :: N') ++ (' ' :: '\x7d' :: '\x7d' :: ([] : List Char))))) from rfl]
    rw [findF_cons_none (varAnyCore_none (by decide))]
    rw [findF_cons_none (varAnyCore_none (by decide))]
    rw [findF_cons_some hva2 (by omega)]
    rw [drop_occ2]
    rfl
  have hskipbt : ∀ c ∈ (n0 :: N'), ((c = '\x60' : Bool)) = false := by
    intro c h
    simp [(hcN c h).2.2.1]
  have hf4a : tryFence4 ('\x60' :: ('\x7b' :: '\x7b' :: 'z' :: 'z' :: '\x7d' :: '\x7d' :: ('\x60' :: ' ' :: ('\x7b' :: '\x7b' :: ' ' :: ((n0 :: N') ++ (' ' :: '\x7d' :: '\x7d' :: ([] : List Char))))))) = none := by
    simp [tryFence4, runLen]
  have hf4b : tryFence4 ('\x60' :: ' ' :: ('\x7b' :: '\x7b' :: ' ' :: ((n0 :: N') ++ (' ' :: '\x7d' :: '\x7d' :: ([] : List Char))))) = none := by
    simp [tryFence4, runLen]
  have hp1 : protF tryFence4 protectTok ('a' :: ' ' :: '\x7b' :: '\x7b' :: ((n0 :: N') ++ ('\x7d' :: '\x7d' :: (' ' :: '\x60' :: ('\x7b' :: '\x7b' :: 'z' :: 'z' :: '\x7d' :: '\x7d' :: ('\x60' :: ' ' :: ('\x7b' :: '\x7b' :: ' ' :: ((n0 :: N') ++ (' ' :: '\x7d' :: '\x7d' :: ([] : List Char)))))))))) [] = (('a' :: ' ' :: '\x7b' :: '\x7b' :: ((n0 :: N') ++ ('\x7d' :: '\x7d' :: (' ' :: '\x60' :: ('\x7b' :: '\x7b' :: 'z' :: 'z' :: '\x7d' :: '\x7d' :: ('\x60' :: ' ' :: ('\x7b' :: '\x7b' :: ' ' :: ((n0 :: N') ++ (' ' :: '\x7d' :: '\x7d' :: ([] : List Char)))))))))), []) := by
    rw [protF_cons_none_m (tryFence4_none (by decide))]
    rw [protF_cons_none_m (tryFence4_none (by decide))]
    rw [protF_cons_none_m (tryFence4_none (by decide))]
    rw [protF_cons_none_m (tryFence4_none (by decide))]
    rw [protF_append_skip_m (fun c => (c = '\x60' : Bool))
      (fun c t hh => tryFence4_none (by simpa using hh)) (n0 :: N') _ [] hskipbt]
    rw [protF_cons_none_m (tryFence4_none (by decide))]
    rw [protF_cons_none_m (tryFence4_none (by decide))]
    rw [protF_cons_none_m (tryFence4_none (by decide))]
    rw [protF_cons_none_m hf4a]
    rw [protF_cons_none_m (tryFence4_none (by decide))]
    rw [protF_cons_none_m (tryFence4_none (by decide))]
    rw [protF_cons_none_m (tryFence4_none (by decide))]
    rw [protF_cons_none_m (tryFence4_none (by decide))]
    rw [protF_cons_none_m (tryFence4_none (by decide))]
    rw [protF_cons_none_m (tryFence4_none (by decide))]
    rw [protF_cons_none_m hf4b]
    rw [protF_cons_none_m (tryFence4_none (by decide))]
    rw [protF_cons_none_m (tryFence4_none (by decide))]
    rw [protF_cons_none_m (tryFence4_none (by decide))]
    rw [protF_cons_none_m (tryFence4_none (by decide))]
    rw [protF_append_skip_m (fun c => (c = '\x60' : Bool))
      (fun c t hh => tryFence4_none (by simpa using hh)) (n0 :: N') _ [] hskipbt]
    rw [protF_cons_none_m (tryFence4_none (by decide))]
    rw [protF_cons_none_m (tryFence4_none (by decide))]
    rw [protF_cons_none_m (tryFence4_none (by decide))]
    simp [Prod.map]
    exact ⟨rfl, rfl⟩
  have hf3a : tryFence3 ('\x60' :: ('\x7b' :: '\x7b' :: 'z' :: 'z' :: '\x7d' :: '\x7d' :: ('\x60' :: ' ' :: ('\x7b' :: '\x7b' :: ' ' :: ((n0 :: N') ++ (' ' :: '\x7d' :: '\x7d' :: ([] : List Char))))))) = none := by
    simp [tryFence3, runLen]
  have hf3b : tryFence3 ('\x60' :: ' ' :: ('\x7b' :: '\x7b' :: ' ' :: ((n0 :: N') ++ (' ' :: '\x7d' :: '\x7d' :: ([] : List Char))))) = none := by
    simp [tryFence3, runLen]
  have hp2 : protF tryFence3 protectTok ('a' :: ' ' :: '\x7b' :: '\x7b' :: ((n0 :: N') ++ ('\x7d' :: '\x7d' :: (' ' :: '\x60' :: ('\x7b' :: '\x7b' :: 'z' :: 'z' :: '\x7d' :: '\x7d' :: ('\x60' :: ' ' :: ('\x7b' :: '\x7b' :: ' ' :: ((n0 :: N') ++ (' ' :: '\x7d' :: '\x7d' :: ([] : List Char)))))))))) [] = (('a' :: ' ' :: '\x7b' :: '\x7b' :: ((n0 :: N') ++ ('\x7d' :: '\x7d' :: (' ' :: '\x60' :: ('\x7b' :: '\x7b' :: 'z' :: 'z' :: '\x7d' :: '\x7d' :: ('\x60' :: ' ' :: ('\x7b' :: '\x7b' :: ' ' :: ((n0 :: N') ++ (' ' :: '\x7d' :: '\x7d' :: ([] : List Char)))))))))), []) := by
    rw [protF_cons_none_m (tryFence3_none (by decide))]
    rw [protF_cons_none_m (tryFence3_none (by decide))]
    rw [protF_cons_none_m (tryFence3_none (by decide))]
    rw [protF_cons_none_m (tryFence3_none (by decide))]
    rw [protF_append_skip_m (fun c => (c = '\x60' : Bool))
      (fun c t hh => tryFence3_none (by simpa using hh)) (n0 :: N') _ [] hskipbt]
    rw [protF_cons_none_m (tryFence3_none (by decide))]
    rw [protF_cons_none_m (tryFence3_none (by decide))]
    rw [protF_cons_none_m (tryFence3_none (by decide))]
    rw [protF_cons_none_m hf3a]
    rw [protF_cons_none_m (tryFence3_none (by decide))]
    rw [protF_cons_none_m (tryFence3_none (by decide))]
    rw [protF_cons_none_m (tryFence3_none (by decide))]
    rw [protF_cons_none_m (tryFence3_none (by decide))]
    rw [protF_cons_none_m (tryFence3_none (by decide))]
    rw [protF_cons_none_m (tryFence3_none (by decide))]
    rw [protF_cons_none_m hf3b]
    rw [protF_cons_none_m (tryFence3_none (by decide))]
    rw [protF_cons_none_m (tryFence3_none (by decide))]
    rw [protF_cons_none_m (tryFence3_none (by decide))]
    rw [protF_cons_none_m (tryFence3_none (by decide))]
    rw [protF_append_skip_m (fun c => (c = '\x60' : Bool))
      (fun c t hh => tryFence3_none (by simpa using hh)) (n0 :: N') _ [] hskipbt]
    rw [protF_cons_none_m (tryFence3_none (by decide))]
    rw [protF_cons_none_m (tryFence3_none (by decide))]
    rw [protF_cons_none_m (tryFence3_none (by decide))]
    simp [Prod.map]
    exact ⟨rfl, rfl⟩
  have hic : tryInlineCode ('\x60' :: ('\x7b' :: '\x7b' :: 'z' :: 'z' :: '\x7d' :: '\x7d' :: ('\x60' :: ' ' :: ('\x7b' :: '\x7b' :: ' ' :: ((n0 :: N') ++ (' ' :: '\x7d' :: '\x7d' :: ([] : List Char))))))) = some 8 := by
    simp [tryInlineCode, List.takeWhile]
  have hocc2chars : ∀ c ∈ ' ' :: ('\x7b' :: '\x7b' :: ' ' :: ((n0 :: N') ++ (' ' :: '\x7d' :: '\x7d' :: ([] : List Char)))), ((c = '\x60' : Bool)) = false := by
    simp only [List.forall_mem_cons, List.forall_mem_append]
    refine ⟨by decide, by decide, by decide, by decide,
      ⟨by simp [(hcN n0 (by simp)).2.2.1],
        fun c h => by simp [(hcN c (List.mem_cons_of_mem _ h)).2.2.1]⟩, ?_⟩
    decide
  have hp3 : protF tryInlineCode protectTok ('a' :: ' ' :: '\x7b' :: '\x7b' :: ((n0 :: N') ++ ('\x7d' :: '\x7d' :: (' ' :: '\x60' :: ('\x7b' :: '\x7b' :: 'z' :: 'z' :: '\x7d' :: '\x7d' :: ('\x60' :: ' ' :: ('\x7b' :: '\x7b' :: ' ' :: ((n0 :: N') ++ (' ' :: '\x7d' :: '\x7d' :: ([] : List Char)))))))))) [] = (('a' :: ' ' :: '\x7b' :: '\x7b' :: ((n0 :: N') ++ ('\x7d' :: '\x7d' :: (' ' :: (protectTok 0 ++ (' ' :: ('\x7b' :: '\x7b' :: ' ' :: ((n0 :: N') ++ (' ' :: '\x7d' :: '\x7d' :: ([] : List Char)))))))))), [('\x60' :: '\x7b' :: '\x7b' :: 'z' :: 'z' :: '\x7d' :: '\x7d' :: '\x60' :: ([] : List Char))]) := by
    rw [protF_cons_none_m (tryInlineCode_none (by decide))]
    rw [protF_cons_none_m (tryInlineCode_none (by decide))]
    rw [protF_cons_none_m (tryInlineCode_none (by decide))]
    rw [protF_cons_none_m (tryInlineCode_none (by decide))]
    rw [protF_append_skip_m (fun c => (c = '\x60' : Bool))
      (fun c t hh => tryInlineCode_none (by simpa using hh)) (n0 :: N') _ [] hskipbt]
    rw [protF_cons_none_m (tryInlineCode_none (by decide))]
    rw [protF_cons_none_m (tryInlineCode_none (by decide))]
    rw [protF_cons_none_m (tryInlineCode_none (by decide))]
    rw [protF_cons_some_m hic (by omega)]
    rw [show ('\x60' :: ('\x7b' :: '\x7b' :: 'z' :: 'z' :: '\x7d' :: '\x7d' :: ('\x60' :: ' ' :: ('\x7b' :: '\x7b' :: ' ' :: ((n0 :: N') ++ (' ' :: '\x7d' :: '\x7d' :: ([] : List Char))))))).take 8 = ('\x60' :: '\x7b' :: '\x7b' :: 'z' :: 'z' :: '\x7d' :: '\x7d' :: '\x60' :: ([] : List Char)) from rfl]
    rw [show ('\x60' :: ('\x7b' :: '\x7b' :: 'z' :: 'z' :: '\x7d' :: '\x7d' :: ('\x60' :: ' ' :: ('\x7b' :: '\x7b' :: ' ' :: ((n0 :: N') ++ (' ' :: '\x7d' :: '\x7d' :: ([] : List Char))))))).drop 8 = ' ' :: ('\x7b' :: '\x7b' :: ' ' :: ((n0 :: N') ++ (' ' :: '\x7d' :: '\x7d' :: ([] : List Char)))) from rfl]
    rw [protF_eq_self (fun c => (c = '\x60' : Bool))
      (fun c t hh => tryInlineCode_none (by simpa using hh)) _ _ hocc2chars]
    simp [Prod.map]
  have hNws : ∀ c ∈ (n0 :: N'), isWsChar c = false := fun c h => (hcN c h).2.2.2.2.2
  have hC1chars : ∀ c ∈ ('a' :: ' ' :: '\x7b' :: '\x7b' :: ((n0 :: N') ++ ('\x7d' :: '\x7d' :: (' ' :: (protectTok 0 ++ (' ' :: ('\x7b' :: '\x7b' :: ' ' :: ((n0 :: N') ++ (' ' :: '\x7d' :: '\x7d' :: ([] : List Char)))))))))), ((c = '\x60' : Bool) || (c = '$' : Bool)) = false := by
    simp only [List.forall_mem_cons, List.forall_mem_append]
    refine ⟨by decide, by decide, by decide, by decide,
      ⟨by simp [(hcN n0 (by simp)).2.2.1, (hcN n0 (by simp)).2.2.2.1],
        fun c h => by
          simp [(hcN c (List.mem_cons_of_mem _ h)).2.2.1,
            (hcN c (List.mem_cons_of_mem _ h)).2.2.2.1]⟩,
      by decide, by decide, by decide, by decide, by decide, by decide,
      by decide, by decide,
      ⟨by simp [(hcN n0 (by simp)).2.2.1, (hcN n0 (by simp)).2.2.2.1],
        fun c h => by
          simp [(hcN c (List.mem_cons_of_mem _ h)).2.2.1,
            (hcN c (List.mem_cons_of_mem _ h)).2.2.2.1]⟩,
      by decide⟩
  have hp4 : protF tryMath2 protectTok ('a' :: ' ' :: '\x7b' :: '\x7b' :: ((n0 :: N') ++ ('\x7d' :: '\x7d' :: (' ' :: (protectTok 0 ++ (' ' :: ('\x7b' :: '\x7b' :: ' ' :: ((n0 :: N') ++ (' ' :: '\x7d' :: '\x7d' :: ([] : List Char)))))))))) [('\x60' :: '\x7b' :: '\x7b' :: 'z' :: 'z' :: '\x7d' :: '\x7d' :: '\x60' :: ([] : List Char))] = (('a' :: ' ' :: '\x7b' :: '\x7b' :: ((n0 :: N') ++ ('\x7d' :: '\x7d' :: (' ' :: (protectTok 0 ++ (' ' :: ('\x7b' :: '\x7b' :: ' ' :: ((n0 :: N') ++ (' ' :: '\x7d' :: '\x7d' :: ([] : List Char)))))))))), [('\x60' :: '\x7b' :: '\x7b' :: 'z' :: 'z' :: '\x7d' :: '\x7d' :: '\x60' :: ([] : List Char))]) :=
    protF_eq_self _ (fun c t hh => tryMath2_none
      (by simpa using (Bool.or_eq_false_iff.mp hh).2)) _ _ hC1chars
  have hp5 : protF tryMath1 protectTok ('a' :: ' ' :: '\x7b' :: '\x7b' :: ((n0 :: N') ++ ('\x7d' :: '\x7d' :: (' ' :: (protectTok 0 ++ (' ' :: ('\x7b' :: '\x7b' :: ' ' :: ((n0 :: N') ++ (' ' :: '\x7d' :: '\x7d' :: ([] : List Char)))))))))) [('\x60' :: '\x7b' :: '\x7b' :: 'z' :: 'z' :: '\x7d' :: '\x7d' :: '\x60' :: ([] : List Char))] = (('a' :: ' ' :: '\x7b' :: '\x7b' :: ((n0 :: N') ++ ('\x7d' :: '\x7d' :: (' ' :: (protectTok 0 ++ (' ' :: ('\x7b' :: '\x7b' :: ' ' :: ((n0 :: N') ++ (' ' :: '\x7d' :: '\x7d' :: ([] : List Char)))))))))), [('\x60' :: '\x7b' :: '\x7b' :: 'z' :: 'z' :: '\x7d' :: '\x7d' :: '\x60' :: ([] : List Char))]) :=
    protF_eq_self _ (fun c t hh => tryMath1_none
      (by simpa using (Bool.or_eq_false_iff.mp hh).2)) _ _ hC1chars
  have hprot : protect_code_and_math_blocks ('a' :: ' ' :: '\x7b' :: '\x7b' :: ((n0 :: N') ++ ('\x7d' :: '\x7d' :: (' ' :: '\x60' :: ('\x7b' :: '\x7b' :: 'z' :: 'z' :: '\x7d' :: '\x7d' :: ('\x60' :: ' ' :: ('\x7b' :: '\x7b' :: ' ' :: ((n0 :: N') ++ (' ' :: '\x7d' :: '\x7d' :: ([] : List Char)))))))))) = (('a' :: ' ' :: '\x7b' :: '\x7b' :: ((n0 :: N') ++ ('\x7d' :: '\x7d' :: (' ' :: (protectTok 0 ++ (' ' :: ('\x7b' :: '\x7b' :: ' ' :: ((n0 :: N') ++ (' ' :: '\x7d' :: '\x7d' :: ([] : List Char)))))))))), [('\x60' :: '\x7b' :: '\x7b' :: 'z' :: 'z' :: '\x7d' :: '\x7d' :: '\x60' :: ([] : List Char))]) := by
    unfold protect_code_and_math_blocks
    rw [hp1]
    dsimp only
    rw [hp2]
    dsimp only
    rw [hp3]
    dsimp only
    rw [hp4]
    dsimp only
    rw [hp5]
  have hvn1 : tryVarNamed "x".data [] ('\x7b' :: '\x7b' :: ((n0 :: N') ++ ('\x7d' :: '\x7d' :: (' ' :: (protectTok 0 ++ (' ' :: ('\x7b' :: '\x7b' :: ' ' :: ((n0 :: N') ++ (' ' :: '\x7d' :: '\x7d' :: ([] : List Char)))))))))) = none := by
    show tryVarNamed "x".data [] ('\x7b' :: '\x7b' :: (n0 :: (N' ++ ('\x7d' :: '\x7d' :: (' ' :: (protectTok 0 ++ (' ' :: ('\x7b' :: '\x7b' :: ' ' :: ((n0 :: N') ++ (' ' :: '\x7d' :: '\x7d' :: ([] : List Char))))))))))) = none
    simp [tryVarNamed, List.takeWhile_cons, hn0ws, List.isPrefixOf, hn0x]
  have hvn2 : ∀ r, tryVarNamed "x".data [] ('\x7b' :: ((n0 :: N') ++ r)) = none := by
    intro r
    show tryVarNamed "x".data [] ('\x7b' :: n0 :: (N' ++ r)) = none
    simp [tryVarNamed, hn0brace]
  have hvn3 : tryVarNamed "x".data [] ('\x7b' :: '\x7b' :: ' ' :: ((n0 :: N') ++ (' ' :: '\x7d' :: '\x7d' :: ([] : List Char)))) = none := by
    show tryVarNamed "x".data [] ('\x7b' :: '\x7b' :: ' ' :: (n0 :: (N' ++ (' ' :: '\x7d' :: '\x7d' :: ([] : List Char))))) = none
    simp [tryVarNamed, List.takeWhile_cons, hn0ws, List.isPrefixOf, hn0x]
  have hvn4 : ∀ r, tryVarNamed "x".data [] ('\x7b' :: ' ' :: r) = none := by
    intro r
    simp [tryVarNamed]
  have hskipvn : ∀ c ∈ (n0 :: N'), ((c = '\x7b' : Bool)) = false := by
    intro c h
    simp [(hcN c h).1]
  have hsearch : searchF (tryVarNamed "x".data []) ('a' :: ' ' :: '\x7b' :: '\x7b' :: ((n0 :: N') ++ ('\x7d' :: '\x7d' :: (' ' :: (protectTok 0 ++ (' ' :: ('\x7b' :: '\x7b' :: ' ' :: ((n0 :: N') ++ (' ' :: '\x7d' :: '\x7d' :: ([] : List Char)))))))))) = false := by
    rw [searchF_cons_none (tryVarNamed_none (by decide))]
    rw [searchF_cons_none (tryVarNamed_none (by decide))]
    rw [searchF_cons_none hvn1]
    rw [searchF_cons_none (hvn2 _)]
    rw [searchF_append_skip (fun c => (c = '\x7b' : Bool))
      (fun c t hh => tryVarNamed_none (by simpa using hh)) (n0 :: N') _ hskipvn]
    rw [searchF_cons_none (tryVarNamed_none (by decide))]
    rw [searchF_cons_none (tryVarNamed_none (by decide))]
    rw [searchF_cons_none (tryVarNamed_none (by decide))]
    rw [searchF_append_skip (fun c => (c = '\x7b' : Bool))
      (fun c t hh => tryVarNamed_none (by simpa using hh)) (protectTok 0) _
      (by decide)]
    rw [searchF_cons_none (tryVarNamed_none (by decide))]
    rw [searchF_cons_none hvn3]
    rw [searchF_cons_none (hvn4 _)]
    rw [searchF_cons_none (tryVarNamed_none (by decide))]
    rw [searchF_append_skip (fun c => (c = '\x7b' : Bool))
      (fun c t hh => tryVarNamed_none (by simpa using hh)) (n0 :: N') _ hskipvn]
    rw [searchF_cons_none (tryVarNamed_none (by decide))]
    rw [searchF_cons_none (tryVarNamed_none (by decide))]
    rw [searchF_cons_none (tryVarNamed_none (by decide))]
    rfl
  have hva1b : varAnyCore ('\x7b' :: '\x7b' :: ((n0 :: N') ++ ('\x7d' :: '\x7d' :: (' ' :: (protectTok 0 ++ (' ' :: ('\x7b' :: '\x7b' :: ' ' :: ((n0 :: N') ++ (' ' :: '\x7d' :: '\x7d' :: ([] : List Char)))))))))) =
      some ((n0 :: N').length + 4, (n0 :: N')) :=
    varAnyCore_occ1 (' ' :: (protectTok 0 ++ (' ' :: ('\x7b' :: '\x7b' :: ' ' :: ((n0 :: N') ++ (' ' :: '\x7d' :: '\x7d' :: ([] : List Char))))))) (by simp) (fun c h => (hcN c h).2.1)
  have hunres : findF varAnyCore ('a' :: ' ' :: '\x7b' :: '\x7b' :: ((n0 :: N') ++ ('\x7d' :: '\x7d' :: (' ' :: (protectTok 0 ++ (' ' :: ('\x7b' :: '\x7b' :: ' ' :: ((n0 :: N') ++ (' ' :: '\x7d' :: '\x7d' :: ([] : List Char)))))))))) = [(n0 :: N'), ' ' :: ((n0 :: N') ++ [' '])] := by
    rw [findF_cons_none (varAnyCore_none (by decide))]
    rw [findF_cons_none (varAnyCore_none (by decide))]
    rw [findF_cons_some hva1b (by omega)]
    rw [drop_occ1]
    rw [findF_cons_none (varAnyCore_none (by decide))]
    rw [findF_append_skip (fun c => (c = '\x7b' : Bool))
      (fun c t hh => varAnyCore_none (by simpa using hh)) (protectTok 0) _
      (by decide)]
    rw [findF_cons_none (varAnyCore_none (by decide))]
    rw [findF_cons_some hva2 (by omega)]
    rw [drop_occ2]
    rfl
  have humnone : ∀ c t, ¬(c = '\x7b') → (fun s => (varAnyCore s).map (fun p => (p.1, "[UNDEFINED: ".data ++ pyStrip p.2 ++ [']']))) (c :: t) = none := by
    intro c t h
    show (varAnyCore (c :: t)).map _ = none
    rw [varAnyCore_none h]
    rfl
  have hum1 : (fun s => (varAnyCore s).map (fun p => (p.1, "[UNDEFINED: ".data ++ pyStrip p.2 ++ [']']))) ('\x7b' :: '\x7b' :: ((n0 :: N') ++ ('\x7d' :: '\x7d' :: (' ' :: (protectTok 0 ++ (' ' :: ('\x7b' :: '\x7b' :: ' ' :: ((n0 :: N') ++ (' ' :: '\x7d' :: '\x7d' :: ([] : List Char)))))))))) =
      some ((n0 :: N').length + 4, ("[UNDEFINED: ".data ++ (n0 :: N') ++ [']'])) := by
    show (varAnyCore _).map _ = _
    rw [hva1b]
    simp [pyStrip_eq_self hNws]
  have hum2 : (fun s => (varAnyCore s).map (fun p => (p.1, "[UNDEFINED: ".data ++ pyStrip p.2 ++ [']']))) ('\x7b' :: '\x7b' :: ' ' :: ((n0 :: N') ++ (' ' :: '\x7d' :: '\x7d' :: ([] : List Char)))) = some ((n0 :: N').length + 6, ("[UNDEFINED: ".data ++ (n0 :: N') ++ [']'])) := by
    show (varAnyCore _).map _ = _
    rw [hva2]
    have hps : pyStrip (' ' :: n0 :: (N' ++ [' '])) = n0 :: N' := by
      rw [show (' ' :: n0 :: (N' ++ [' ']) : List Char) =
        ' ' :: ((n0 :: N') ++ [' ']) from rfl]
      exact pyStrip_space_pad (by simp) hNws
    simp [hps]
  have hsubm : subF (fun s => (varAnyCore s).map (fun p => (p.1, "[UNDEFINED: ".data ++ pyStrip p.2 ++ [']']))) ('a' :: ' ' :: '\x7b' :: '\x7b' :: ((n0 :: N') ++ ('\x7d' :: '\x7d' :: (' ' :: (protectTok 0 ++ (' ' :: ('\x7b' :: '\x7b' :: ' ' :: ((n0 :: N') ++ (' ' :: '\x7d' :: '\x7d' :: ([] : List Char)))))))))) = ('a' :: ' ' :: (("[UNDEFINED: ".data ++ (n0 :: N') ++ [']']) ++ (' ' :: (protectTok 0 ++ (' ' :: (("[UNDEFINED: ".data ++ (n0 :: N') ++ [']']) ++ ([] : List Char))))))) := by
    rw [subF_cons_none (humnone _ _ (by decide))]
    rw [subF_cons_none (humnone _ _ (by decide))]
    rw [subF_cons_some hum1 (by omega)]
    rw [drop_occ1]
    rw [subF_cons_none (humnone _ _ (by decide))]
    rw [subF_append_skip (fun c => (c = '\x7b' : Bool))
      (fun c t hh => humnone c t (by simpa using hh)) (protectTok 0) _
      (by decide)]
    rw [subF_cons_none (humnone _ _ (by decide))]
    rw [subF_cons_some hum2 (by omega)]
    rw [drop_occ2]
    rfl
  have hchain0 : List.dedup [(n0 :: N'), (n0 :: N')] = [(n0 :: N')] := by
    rw [List.dedup_cons_of_mem (by simp)]
    simp
  have hresskip : ∀ c ∈ ' ' :: ("[UNDEFINED: ".data ++ ((n0 :: N') ++ (']' :: ([] : List Char)))),
      ¬(c = '_') := by
    simp only [List.forall_mem_cons, List.forall_mem_append]
    refine ⟨by decide, by decide,
      ⟨by simp [(hcN n0 (by simp)).2.2.2.2.1],
        fun c h => by simp [(hcN c (List.mem_cons_of_mem _ h)).2.2.2.2.1]⟩,
      by decide⟩
  have hpreskip : ∀ c ∈ 'a' :: ' ' :: ("[UNDEFINED: ".data ++ ((n0 :: N') ++ (']' :: ' ' :: ([] : List Char)))),
      ¬(c = '_') := by
    simp only [List.forall_mem_cons, List.forall_mem_append]
    refine ⟨by decide, by decide, by decide,
      ⟨by simp [(hcN n0 (by simp)).2.2.2.2.1],
        fun c h => by simp [(hcN c (List.mem_cons_of_mem _ h)).2.2.2.2.1]⟩,
      by decide⟩
  have hC3split : ('a' :: ' ' :: (("[UNDEFINED: ".data ++ (n0 :: N') ++ [']']) ++ (' ' :: (protectTok 0 ++ (' ' :: (("[UNDEFINED: ".data ++ (n0 :: N') ++ [']']) ++ ([] : List Char))))))) =
      ('a' :: ' ' :: ("[UNDEFINED: ".data ++ ((n0 :: N') ++ (']' :: ' ' :: ([] : List Char))))) ++
        (protectTok 0 ++
          (' ' :: ("[UNDEFINED: ".data ++ ((n0 :: N') ++ (']' :: ([] : List Char)))))) := by
    simp
  have hres : restore_protected_blocks ('a' :: ' ' :: (("[UNDEFINED: ".data ++ (n0 :: N') ++ [']']) ++ (' ' :: (protectTok 0 ++ (' ' :: (("[UNDEFINED: ".data ++ (n0 :: N') ++ [']']) ++ ([] : List Char))))))) [('\x60' :: '\x7b' :: '\x7b' :: 'z' :: 'z' :: '\x7d' :: '\x7d' :: '\x60' :: ([] : List Char))] =
      ('a' :: ' ' :: ("[UNDEFINED: ".data ++ ((n0 :: N') ++ (']' :: ' ' :: ([] : List Char))))) ++
        (('\x60' :: '\x7b' :: '\x7b' :: 'z' :: 'z' :: '\x7d' :: '\x7d' :: '\x60' :: ([] : List Char)) ++
          (' ' :: ("[UNDEFINED: ".data ++ ((n0 :: N') ++ (']' :: ([] : List Char)))))) := by
    show replaceAll (protectTok 0) ('\x60' :: '\x7b' :: '\x7b' :: 'z' :: 'z' :: '\x7d' :: '\x7d' :: '\x60' :: ([] : List Char)) ('a' :: ' ' :: (("[UNDEFINED: ".data ++ (n0 :: N') ++ [']']) ++ (' ' :: (protectTok 0 ++ (' ' :: (("[UNDEFINED: ".data ++ (n0 :: N') ++ [']']) ++ ([] : List Char))))))) = _
    rw [hC3split]
    rw [show protectTok 0 = '_' :: "_PROTECTED_PLACEHOLDER_0__".data from by decide]
    rw [replaceAll_append_skip ('\x60' :: '\x7b' :: '\x7b' :: 'z' :: 'z' :: '\x7d' :: '\x7d' :: '\x60' :: ([] : List Char)) _ _ hpreskip]
    rw [replaceAll_left ('\x60' :: '\x7b' :: '\x7b' :: 'z' :: 'z' :: '\x7d' :: '\x7d' :: '\x60' :: ([] : List Char)) _ (by simp)]
    rw [replaceAll_eq_self ('\x60' :: '\x7b' :: '\x7b' :: 'z' :: 'z' :: '\x7d' :: '\x7d' :: '\x60' :: ([] : List Char)) _ hresskip]
  have hRHS : ('a' :: ' ' :: ("[UNDEFINED: ".data ++ ((n0 :: N') ++ (']' :: ' ' :: ([] : List Char))))) ++
        (('\x60' :: '\x7b' :: '\x7b' :: 'z' :: 'z' :: '\x7d' :: '\x7d' :: '\x60' :: ([] : List Char)) ++
          (' ' :: ("[UNDEFINED: ".data ++ ((n0 :: N') ++ (']' :: ([] : List Char)))))) =
      ("a [UNDEFINED: ".data ++
        ((n0 :: N') ++ ("] \x60\x7b\x7bzz\x7d\x7d\x60 [UNDEFINED: ".data ++
          ((n0 :: N') ++ "]".data)))) := by
    rw [show ("a [UNDEFINED: ".data : List Char) = 'a' :: ' ' :: "[UNDEFINED: ".data from rfl]
    rw [show ("] \x60\x7b\x7bzz\x7d\x7d\x60 [UNDEFINED: ".data : List Char) =
      ']' :: ' ' :: (('\x60' :: '\x7b' :: '\x7b' :: 'z' :: 'z' :: '\x7d' :: '\x7d' :: '\x60' :: ([] : List Char)) ++ (' ' :: "[UNDEFINED: ".data)) from by decide]
    rw [show ("]".data : List Char) = [']'] from rfl]
    simp
  have hsv : ∀ (content c1 : List Char) (bs : List (List Char))
      (vs : List (List Char × List Char)),
      ¬(findF varAnyCore content = []) →
      protect_code_and_math_blocks content = (c1, bs) →
      substitute_variables content vs =
        (restore_protected_blocks
          (if findF varAnyCore (vs.foldl (fun c nv =>
        if searchF (tryVarNamed nv.1 []) c then
          subF (tryVarNamed nv.1 (templateDecode (escapeValue nv.2))) c
        else c) c1) = []
            then vs.foldl (fun c nv =>
        if searchF (tryVarNamed nv.1 []) c then
          subF (tryVarNamed nv.1 (templateDecode (escapeValue nv.2))) c
        else c) c1
            else subF (fun s => (varAnyCore s).map (fun p => (p.1, "[UNDEFINED: ".data ++ pyStrip p.2 ++ [']']))) (vs.foldl (fun c nv =>
        if searchF (tryVarNamed nv.1 []) c then
          subF (tryVarNamed nv.1 (templateDecode (escapeValue nv.2))) c
        else c) c1)) bs,
         if findF varAnyCore (vs.foldl (fun c nv =>
        if searchF (tryVarNamed nv.1 []) c then
          subF (tryVarNamed nv.1 (templateDecode (escapeValue nv.2))) c
        else c) c1) = [] then []
         else ((findF varAnyCore (vs.foldl (fun c nv =>
        if searchF (tryVarNamed nv.1 []) c then
          subF (tryVarNamed nv.1 (templateDecode (escapeValue nv.2))) c
        else c) c1)).map pyStrip).dedup) := by
    intro content c1 bs vs h hp
    simp only [substitute_variables]
    rw [if_neg h, hp]
  have hfold : List.foldl (fun c nv =>
        if searchF (tryVarNamed nv.1 []) c then
          subF (tryVarNamed nv.1 (templateDecode (escapeValue nv.2))) c
        else c) ('a' :: ' ' :: '\x7b' :: '\x7b' :: ((n0 :: N') ++ ('\x7d' :: '\x7d' :: (' ' :: (protectTok 0 ++ (' ' :: ('\x7b' :: '\x7b' :: ' ' :: ((n0 :: N') ++ (' ' :: '\x7d' :: '\x7d' :: ([] : List Char)))))))))) [("x".data, "1".data)] = ('a' :: ' ' :: '\x7b' :: '\x7b' :: ((n0 :: N') ++ ('\x7d' :: '\x7d' :: (' ' :: (protectTok 0 ++ (' ' :: ('\x7b' :: '\x7b' :: ' ' :: ((n0 :: N') ++ (' ' :: '\x7d' :: '\x7d' :: ([] : List Char)))))))))) := by
    rw [List.foldl_cons, List.foldl_nil]
    exact if_neg (by
      show ¬(searchF (tryVarNamed "x".data []) ('a' :: ' ' :: '\x7b' :: '\x7b' :: ((n0 :: N') ++ ('\x7d' :: '\x7d' :: (' ' :: (protectTok 0 ++ (' ' :: ('\x7b' :: '\x7b' :: ' ' :: ((n0 :: N') ++ (' ' :: '\x7d' :: '\x7d' :: ([] : List Char)))))))))) = true)
      rw [hsearch]
      simp)
  rw [hD]
  rw [hsv _ _ _ _ (by rw [hfind]; simp) hprot]
  rw [hfold]
  rw [hunres]
  rw [if_neg (List.cons_ne_nil _ _), if_neg (List.cons_ne_nil _ _)]
  rw [hsubm]
  rw [hres]
  rw [List.map_cons, List.map_cons, List.map_nil]
  rw [pyStrip_eq_self hNws]
  rw [pyStrip_space_pad (by simp) hNws]
  rw [hchain0]
  simp only [Prod.mk.injEq]
  exact ⟨hRHS, trivial⟩

/-- Concrete instance of the C6 theorem at the undefined variable name
`missing`: both occurrences are rewritten to the bracketed warning, the
inline-code occurrence survives, and the report lists the name once. -/
theorem C6_undefined_variable_reported_once_witness :
    substitute_variables
        ("a \x7b\x7b".data ++
          ("missing".data ++
            ("\x7d\x7d \x60\x7b\x7bzz\x7d\x7d\x60 \x7b\x7b ".data ++
              ("missing".data ++ " \x7d\x7d".data))))
        [("x".data, "1".data)] =
      ("a [UNDEFINED: ".data ++
        ("missing".data ++
          ("] \x60\x7b\x7bzz\x7d\x7d\x60 [UNDEFINED: ".data ++
            ("missing".data ++ "]".data))), ["missing".data]) :=
  C6_undefined_variable_reported_once "missing".data (by decide) (by decide)
    (by decide)

theorem wsFacts (c : Char) (h1 : isWsChar c = true) :
    ¬(c = ':') ∧ ¬(c = '_') ∧ ¬(c = '\\') ∧
      ((c = '\x60' : Bool) || (c = '$' : Bool)) = false := by
  simp only [isWsChar, decide_eq_true_eq] at h1
  rcases h1 with rfl | rfl | rfl | rfl | rfl | rfl <;> exact (by decide)

theorem dropWhile_append_cons (p : Char → Bool) (x : List Char) (b : Char)
    (y : List Char) (hx : ∀ c ∈ x, p c = true) (hb : p b = false) :
    (x ++ b :: y).dropWhile p = b :: y := by
  induction x with
  | nil => simp [List.dropWhile, hb]
  | cons c cs ih =>
    rw [List.cons_append]
    rw [List.dropWhile_cons_of_pos (hx c (by simp))]
    rw [ih (fun d hd => hx d (by simp [hd]))]

theorem splitOnNl_no_nl (l : List Char) (h : ∀ c ∈ l, ¬(c = '\n')) :
    splitOnNl l = [l] := by
  induction l with
  | nil => rfl
  | cons c cs ih =>
    simp only [splitOnNl]
    rw [ih (fun d hd => h d (by simp [hd]))]
    rw [if_neg (h c (by simp))]

theorem splitOnNl_append_nl (a t : List Char) (h : ∀ c ∈ a, ¬(c = '\n')) :
    splitOnNl (a ++ '\n' :: t) = a :: splitOnNl t := by
  induction a with
  | nil => simp [splitOnNl]
  | cons c cs ih =>
    rw [List.cons_append]
    simp only [splitOnNl]
    rw [ih (fun d hd => h d (by simp [hd]))]
    rw [if_neg (h c (by simp))]

theorem splitOnNl_joinNl (ls : List (List Char)) (hne : ¬(ls = []))
    (h : ∀ l ∈ ls, ∀ c ∈ l, ¬(c = '\n')) :
    splitOnNl (joinNl ls) = ls := by
  induction ls with
  | nil => exact absurd rfl hne
  | cons a ls ih =>
    cases ls with
    | nil => exact splitOnNl_no_nl a (h a (by simp))
    | cons b ls' =>
      rw [show joinNl (a :: b :: ls') = a ++ '\n' :: joinNl (b :: ls') from rfl]
      rw [splitOnNl_append_nl a _ (h a (by simp))]
      rw [ih (by simp) (fun l hl => h l (by simp [hl]))]

theorem forall_mem_append2 {P : Char → Prop} {a b : List Char}
    (ha : ∀ c ∈ a, P c) (hb : ∀ c ∈ b, P c) : ∀ c ∈ a ++ b, P c := by
  intro c hc
  rcases List.mem_append.mp hc with h | h
  · exact ha c h
  · exact hb c h

theorem forall_mem_joinNl (P : Char → Prop) (hnl : P '\n')
    (ls : List (List Char)) (h : ∀ l ∈ ls, ∀ c ∈ l, P c) :
    ∀ c ∈ joinNl ls, P c := by
  induction ls with
  | nil => intro c hc; simp [joinNl] at hc
  | cons a ls ih =>
    cases ls with
    | nil => exact h a (by simp)
    | cons b ls' =>
      rw [show joinNl (a :: b :: ls') = a ++ '\n' :: joinNl (b :: ls') from rfl]
      refine forall_mem_append2 (h a (by simp)) ?_
      intro c hc
      rcases List.mem_cons.mp hc with rfl | hc
      · exact hnl
      · exact ih (fun l hl => h l (by simp [hl])) c hc

theorem pyStrip_ws_cons (v : List Char) (b : Char) (r : List Char)
    (hv : ∀ c ∈ v, isWsChar c = true) (hb : isWsChar b = false) :
    (pyStrip (v ++ b :: r)).isEmpty = false := by
  unfold pyStrip
  rw [dropWhile_append_cons isWsChar v b r hv hb]
  cases hdw : (b :: r).reverse.dropWhile isWsChar with
  | nil =>
    have := (List.dropWhile_eq_nil_iff.mp hdw) b (by simp)
    rw [this] at hb
    exact Bool.noConfusion hb
  | cons x xs => simp

theorem prefix_ws_le (p : Char → Bool) :
    ∀ (u v : List Char) (b : Char) (r : List Char),
      (∀ c ∈ u, p c = true) → p b = false →
      u.isPrefixOf (v ++ b :: r) = true → u.length ≤ v.length := by
  intro u
  induction u with
  | nil => intro v b r _ _ _; simp
  | cons x u ih =>
    intro v b r hu hb hp
    cases v with
    | nil =>
      exfalso
      have hp2 : ((x == b) && u.isPrefixOf r) = true := hp
      have hxb : x = b := beq_iff_eq.mp ((by simpa using hp2 :
        (x == b) = true ∧ u.isPrefixOf r = true)).1
      rw [← hxb] at hb
      rw [hu x (by simp)] at hb
      exact Bool.noConfusion hb
    | cons y v =>
      have hp2 : ((x == y) && u.isPrefixOf (v ++ b :: r)) = true := hp
      have h2 : (x == y) = true ∧ u.isPrefixOf (v ++ b :: r) = true := by
        simpa using hp2
      have hle := ih v b r (fun c hc => hu c (by simp [hc])) hb h2.2
      simp only [List.length_cons]
      omega

theorem cleanLine_nonws_head (u : List Char) (hu : ∀ c ∈ u, isWsChar c = true)
    (b : Char) (r : List Char) (hb : isWsChar b = false) :
    cleanLine u (b :: r) = b :: r := by
  unfold cleanLine
  by_cases h : u.isPrefixOf (b :: r) ∧ u.length < (b :: r).length
  · rw [if_pos h]
    cases u with
    | nil => rfl
    | cons c u' =>
      exfalso
      have hp := List.isPrefixOf_iff_prefix.mp h.1
      obtain ⟨t, ht⟩ := hp
      rw [List.cons_append] at ht
      have hcb : c = b := (List.cons.injEq _ _ _ _).mp ht |>.1
      rw [← hcb] at hb
      rw [hu c (by simp)] at hb
      exact Bool.noConfusion hb
  · rw [if_neg h]
    have := pyStrip_ws_cons [] b r (by simp) hb
    rw [show ([] ++ b :: r : List Char) = b :: r from rfl] at this
    rw [if_neg (by simp [this])]

theorem cleanLine_ws_ws (u v : List Char) (b : Char) (r : List Char)
    (hu : ∀ c ∈ u, isWsChar c = true) (hv : ∀ c ∈ v, isWsChar c = true)
    (hb : isWsChar b = false) :
    ∃ w, (∀ c ∈ w, c ∈ v) ∧ cleanLine u (v ++ b :: r) = w ++ b :: r := by
  unfold cleanLine
  by_cases h : u.isPrefixOf (v ++ b :: r) ∧ u.length < (v ++ b :: r).length
  · rw [if_pos h]
    have hlen : u.length ≤ v.length := prefix_ws_le isWsChar u v b r hu hb h.1
    refine ⟨v.drop u.length, fun c hc => List.mem_of_mem_drop hc, ?_⟩
    rw [List.drop_append_of_le_length hlen]
  · rw [if_neg h]
    rw [if_neg (by simp [pyStrip_ws_cons v b r hv hb])]
    exact ⟨v, fun c hc => hc, rfl⟩

theorem matchOpenFence_note (w : List Char) (hw : ∀ c ∈ w, isWsChar c = true) :
    matchOpenFence (w ++ ":::note".data) = some (w, "mdalertnote".data) := by
  simp only [matchOpenFence]
  rw [takeWhile_append_cons isWsChar w ':' _ hw (by decide)]
  rw [List.drop_left]
  rfl

theorem matchOpenFence_tip (w : List Char) (hw : ∀ c ∈ w, isWsChar c = true) :
    matchOpenFence (w ++ ":::tip".data) = some (w, "mdalerttip".data) := by
  simp only [matchOpenFence]
  rw [takeWhile_append_cons isWsChar w ':' _ hw (by decide)]
  rw [List.drop_left]
  rfl

theorem matchOpenFence_bare (w : List Char) (hw : ∀ c ∈ w, isWsChar c = true) :
    matchOpenFence (w ++ ":::".data) = none := by
  simp only [matchOpenFence]
  rw [takeWhile_append_cons isWsChar w ':' _ hw (by decide)]
  rw [List.drop_left]
  rfl

theorem matchCloseFence_bare (w : List Char) (hw : ∀ c ∈ w, isWsChar c = true) :
    matchCloseFence (w ++ ":::".data) = true := by
  simp only [matchCloseFence]
  rw [dropWhile_append_cons isWsChar w ':' _ hw (by decide)]
  rfl

theorem containerFuel_x (k : Nat) : containerFuel k "x".data = "x".data := by
  cases k with
  | zero => rfl
  | succ d =>
    simp only [containerFuel]
    rw [protect_eq_self _ (by decide)]
    rfl

theorem captureBlock_cons_other (ind l : List Char) (ls : List (List Char))
    (nest : Nat) (b r : List (List Char)) (ho : matchOpenFence l = none)
    (hc : matchCloseFence l = false)
    (hrec : captureBlock ind ls nest = (b, r)) :
    captureBlock ind (l :: ls) nest = (cleanLine ind l :: b, r) := by
  simp only [captureBlock, ho, hc, Option.isSome_none, Bool.false_eq_true,
    if_false, hrec]

theorem captureBlock_cons_open (ind l : List Char) (ls : List (List Char))
    (nest : Nat) (p : List Char × List Char) (b r : List (List Char))
    (ho : matchOpenFence l = some p)
    (hrec : captureBlock ind ls (nest + 1) = (b, r)) :
    captureBlock ind (l :: ls) nest = (cleanLine ind l :: b, r) := by
  simp only [captureBlock, ho, Option.isSome_some, if_true, hrec]

theorem captureBlock_cons_close_end (ind l : List Char) (ls : List (List Char))
    (ho : matchOpenFence l = none) (hc : matchCloseFence l = true) :
    captureBlock ind (l :: ls) 1 = ([], ls) := by
  simp only [captureBlock, ho, hc, Option.isSome_none, Bool.false_eq_true,
    if_false, if_true]

theorem captureBlock_cons_close_dec (ind l : List Char) (ls : List (List Char))
    (nest : Nat) (b r : List (List Char)) (ho : matchOpenFence l = none)
    (hc : matchCloseFence l = true) (hne : ¬(nest = 1))
    (hrec : captureBlock ind ls (nest - 1) = (b, r)) :
    captureBlock ind (l :: ls) nest = (cleanLine ind l :: b, r) := by
  simp only [captureBlock, ho, hc, Option.isSome_none, Bool.false_eq_true,
    if_false, if_true, if_neg hne, hrec]

theorem loopW_nil (pcb : List Char → List Char) (f cnt : Nat) :
    loopW pcb f [] cnt = [] := by
  cases f <;> rfl

theorem loopW_cons_none (pcb : List Char → List Char) (f : Nat)
    (l : List Char) (ls : List (List Char)) (cnt : Nat)
    (h : matchOpenFence l = none) :
    loopW pcb (f + 1) (l :: ls) cnt = l :: loopW pcb f ls cnt := by
  simp only [loopW, h]

theorem loopW_cons_open (pcb : List Char → List Char) (f : Nat)
    (l : List Char) (ls : List (List Char)) (cnt : Nat) (ind env : List Char)
    (body rest : List (List Char))
    (h : matchOpenFence l = some (ind, env))
    (hcap : captureBlock ind ls 1 = (body, rest)) :
    loopW pcb (f + 1) (l :: ls) cnt =
      (ind ++ alertBegin cnt env) :: [] ::
        (if pcb (joinNl (trimTrailingBlanks body)) = [] then []
         else splitOnNl (pcb (joinNl (trimTrailingBlanks body)))).map
          (ind ++ ·) ++
        [] :: (ind ++ alertEnd cnt env) :: loopW pcb f rest (cnt + 1) := by
  simp only [loopW, h, hcap]

theorem envMarkersG_congr :
    ∀ (f g : Nat) (s : List Char), s.length ≤ f → s.length ≤ g →
      envMarkersG f s = envMarkersG g s := by
  intro f
  induction f with
  | zero =>
    intro g s hf _
    have hs : s = [] := List.eq_nil_of_length_eq_zero (Nat.le_zero.mp hf)
    subst hs
    cases g <;> rfl
  | succ f ih =>
    intro g s hf hg
    cases s with
    | nil => cases g <;> rfl
    | cons c cs =>
      cases g with
      | zero => simp at hg
      | succ g =>
        simp only [envMarkersG]
        by_cases hc : c = '\\'
        · rw [if_pos hc, if_pos hc]
          by_cases hb : ("begin\x7b".data : List Char).isPrefixOf cs
          · rw [if_pos hb, if_pos hb]
            have hl : ((cs.drop 6).drop
                (((cs.drop 6).takeWhile (fun d => ¬(d = '\x7d'))).length + 1)).length
                ≤ cs.length := by
              simp only [List.length_drop]
              omega
            rw [ih g _ (by simp at hf; omega) (by simp at hg; omega)]
          · rw [if_neg hb, if_neg hb]
            by_cases he : ("end\x7b".data : List Char).isPrefixOf cs
            · rw [if_pos he, if_pos he]
              rw [ih g _ ?_ ?_]
              · simp only [List.length_drop]
                simp at hf
                omega
              · simp only [List.length_drop]
                simp at hg
                omega
            · rw [if_neg he, if_neg he]
              rw [ih g cs (by simp at hf; omega) (by simp at hg; omega)]
        · rw [if_neg hc, if_neg hc]
          rw [ih g cs (by simp at hf; omega) (by simp at hg; omega)]

theorem envMarkers_nil : envMarkers [] = [] := rfl

theorem envMarkers_cons_skip {c : Char} {cs : List Char} (h : ¬(c = '\\')) :
    envMarkers (c :: cs) = envMarkers cs := by
  show envMarkersG (cs.length + 1) (c :: cs) = _
  simp only [envMarkersG, if_neg h]
  rfl

theorem envMarkers_append_skip (pre : List Char)
    (hpre : ∀ c ∈ pre, ¬(c = '\\')) (s : List Char) :
    envMarkers (pre ++ s) = envMarkers s := by
  induction pre with
  | nil => rfl
  | cons c cs ih =>
    rw [List.cons_append]
    rw [envMarkers_cons_skip (hpre c (by simp))]
    exact ih (fun d hd => hpre d (by simp [hd]))

theorem envMarkersG_succ_cons (f : Nat) (c : Char) (cs : List Char) :
    envMarkersG (f + 1) (c :: cs) =
      (if c = '\\' then
        if "begin\x7b".data.isPrefixOf cs then
          (true, (cs.drop 6).takeWhile (fun d => ¬(d = '\x7d'))) ::
            envMarkersG f ((cs.drop 6).drop
              (((cs.drop 6).takeWhile (fun d => ¬(d = '\x7d'))).length + 1))
        else if "end\x7b".data.isPrefixOf cs then
          (false, (cs.drop 4).takeWhile (fun d => ¬(d = '\x7d'))) ::
            envMarkersG f ((cs.drop 4).drop
              (((cs.drop 4).takeWhile (fun d => ¬(d = '\x7d'))).length + 1))
        else envMarkersG f cs
      else envMarkersG f cs) := rfl

theorem envMarkers_begin (nm rest : List Char)
    (hnm : ∀ c ∈ nm, (¬(c = '\x7d') : Bool) = true) :
    envMarkers ('\\' :: ("begin\x7b".data ++ (nm ++ ('\x7d' :: rest)))) =
      (true, nm) :: envMarkers rest := by
  show envMarkersG (("begin\x7b".data ++ (nm ++ ('\x7d' :: rest))).length + 1) _ = _
  rw [envMarkersG_succ_cons]
  rw [if_pos rfl]
  rw [if_pos (List.isPrefixOf_iff_prefix.mpr (List.prefix_append _ _))]
  rw [show (6 : Nat) = ("begin\x7b".data : List Char).length from rfl]
  rw [List.drop_left]
  rw [takeWhile_append_cons _ nm '\x7d' rest hnm (by decide)]
  rw [show nm ++ '\x7d' :: rest = (nm ++ ['\x7d']) ++ rest from by simp]
  rw [show nm.length + 1 = (nm ++ ['\x7d']).length from by simp]
  rw [List.drop_left]
  congr 1
  apply envMarkersG_congr
  · simp
    omega
  · exact Nat.le_refl _

theorem envMarkers_end (nm rest : List Char)
    (hnm : ∀ c ∈ nm, (¬(c = '\x7d') : Bool) = true) :
    envMarkers ('\\' :: ("end\x7b".data ++ (nm ++ ('\x7d' :: rest)))) =
      (false, nm) :: envMarkers rest := by
  show envMarkersG (("end\x7b".data ++ (nm ++ ('\x7d' :: rest))).length + 1) _ = _
  rw [envMarkersG_succ_cons]
  rw [if_pos rfl]
  rw [if_neg ?hb]
  case hb =>
    intro hcon
    obtain ⟨t, ht⟩ := List.isPrefixOf_iff_prefix.mp hcon
    have h0 := congrArg (fun l => l[0]?) ht
    simp at h0
  rw [if_pos (List.isPrefixOf_iff_prefix.mpr (List.prefix_append _ _))]
  rw [show (4 : Nat) = ("end\x7b".data : List Char).length from rfl]
  rw [List.drop_left]
  rw [takeWhile_append_cons _ nm '\x7d' rest hnm (by decide)]
  rw [show nm ++ '\x7d' :: rest = (nm ++ ['\x7d']) ++ rest from by simp]
  rw [show nm.length + 1 = (nm ++ ['\x7d']).length from by simp]
  rw [List.drop_left]
  congr 1
  apply envMarkersG_congr
  · simp
    omega
  · exact Nat.le_refl _

theorem tryAlertBegin_at_end_note (rest : List Char) :
    tryAlertBegin ("__ALERT_END_0_mdalertnote__".data ++ rest) = none := rfl

theorem tryAlertBegin_at_end_tip (rest : List Char) :
    tryAlertBegin ("__ALERT_END_0_mdalerttip__".data ++ rest) = none := rfl

theorem tryAlertBegin_note (rest : List Char) :
    tryAlertBegin ("__ALERT_BEGIN_0_mdalertnote__".data ++ rest) =
      some (29, "\\begin\x7bmdalertnote\x7d".data) := rfl

theorem tryAlertBegin_tip (rest : List Char) :
    tryAlertBegin ("__ALERT_BEGIN_0_mdalerttip__".data ++ rest) =
      some (28, "\\begin\x7bmdalerttip\x7d".data) := rfl

theorem tryAlertEnd_note (rest : List Char) :
    tryAlertEnd ("__ALERT_END_0_mdalertnote__".data ++ rest) =
      some (27, "\\end\x7bmdalertnote\x7d".data) := rfl

theorem tryAlertEnd_tip (rest : List Char) :
    tryAlertEnd ("__ALERT_END_0_mdalerttip__".data ++ rest) =
      some (26, "\\end\x7bmdalerttip\x7d".data) := rfl

theorem subF_skip_concrete {try? : List Char → Option (Nat × List Char)} :
    ∀ (M rest : List Char),
      (∀ i, i < M.length → try? (M.drop i ++ rest) = none) →
      subF try? (M ++ rest) = M ++ subF try? rest := by
  intro M
  induction M with
  | nil => intro rest _; rfl
  | cons a M' ih =>
    intro rest h
    have h0 : try? (a :: (M' ++ rest)) = none := h 0 (by simp)
    show subF try? (a :: (M' ++ rest)) = _
    rw [subF_cons_none h0]
    rw [ih rest (fun i hi => h (i + 1) (by simp; omega))]
    rfl

theorem subF_marker {try? : List Char → Option (Nat × List Char)}
    (M rep rest : List Char) (hpos : ¬(M = []))
    (hM : try? (M ++ rest) = some (M.length, rep)) :
    subF try? (M ++ rest) = rep ++ subF try? rest := by
  cases M with
  | nil => exact absurd rfl hpos
  | cons a M' =>
    have hM2 : try? (a :: (M' ++ rest)) = some (M'.length + 1, rep) := hM
    show subF try? (a :: (M' ++ rest)) = _
    rw [subF_cons_some hM2 (by simp)]
    rw [List.drop_succ_cons, List.drop_left]

theorem containerFuel_succ_unfold (d : Nat) (c c1 : List Char)
    (bs : List (List Char)) (hp : protect_code_and_math_blocks c = (c1, bs)) :
    containerFuel (d + 1) c =
      restore_protected_blocks
        (joinNl (loopW (containerFuel d)
          (splitOnNl c1).length (splitOnNl c1) 0)) bs := by
  simp only [containerFuel]
  rw [hp]

theorem post_process_alerts_unfold (c c1 : List Char) (bs : List (List Char))
    (hp : protect_code_and_math_blocks c = (c1, bs)) :
    post_process_alerts c =
      restore_protected_blocks
        (subF tryAlertEnd (subF tryAlertBegin c1)) bs := by
  simp only [post_process_alerts]
  rw [hp]

theorem splitOnNl_nl_cons (X : List Char) :
    splitOnNl ('\n' :: X) = [] :: splitOnNl X := rfl

theorem containerFuel_tip_block (k : Nat) (u v : List Char)
    (hu : ∀ c ∈ u, isWsChar c = true ∧ ¬(c = '\n'))
    (hv : ∀ c ∈ v, isWsChar c = true ∧ ¬(c = '\n')) :
    containerFuel (k + 1)
        (joinNl [u ++ ":::tip".data, "x".data, v ++ ":::".data]) =
      (u ++ "__ALERT_BEGIN_0_mdalerttip__".data) ++ '\n' :: '\n' ::
        ((u ++ "x".data) ++ '\n' :: '\n' ::
          (u ++ "__ALERT_END_0_mdalerttip__".data)) := by
  have huw : ∀ c ∈ u, isWsChar c = true := fun c hc => (hu c hc).1
  have hvw : ∀ c ∈ v, isWsChar c = true := fun c hc => (hv c hc).1
  have htrig : ∀ c ∈ joinNl [u ++ ":::tip".data, "x".data, v ++ ":::".data],
      ((c = '\x60' : Bool) || (c = '$' : Bool)) = false := by
    refine forall_mem_joinNl _ (by decide) _ ?_
    intro l hl
    simp only [List.mem_cons, List.not_mem_nil, or_false] at hl
    rcases hl with rfl | rfl | rfl
    · exact forall_mem_append2 (fun c hc => (wsFacts c (huw c hc)).2.2.2)
        (by decide)
    · exact (by decide)
    · exact forall_mem_append2 (fun c hc => (wsFacts c (hvw c hc)).2.2.2)
        (by decide)
  rw [containerFuel_succ_unfold k _ _ []
    (protect_eq_self _ htrig)]
  rw [restore_nil]
  rw [splitOnNl_joinNl _ (by simp) ?hnl]
  case hnl =>
    intro l hl
    simp only [List.mem_cons, List.not_mem_nil, or_false] at hl
    rcases hl with rfl | rfl | rfl
    · exact forall_mem_append2 (fun c hc => (hu c hc).2) (by decide)
    · exact (by decide)
    · exact forall_mem_append2 (fun c hc => (hv c hc).2) (by decide)
  have hclx : cleanLine u "x".data = "x".data :=
    cleanLine_nonws_head u huw 'x' [] (by decide)
  have hcapI1 : captureBlock u [v ++ ":::".data] 1 = ([], []) :=
    captureBlock_cons_close_end u _ [] (matchOpenFence_bare v hvw)
      (matchCloseFence_bare v hvw)
  have hcapI : captureBlock u ["x".data, v ++ ":::".data] 1 =
      (["x".data], []) := by
    rw [captureBlock_cons_other u "x".data _ 1 [] [] (by decide) (by decide)
      hcapI1]
    rw [hclx]
  have hlen3 : ([u ++ ":::tip".data, "x".data, v ++ ":::".data] :
      List (List Char)).length = 2 + 1 := rfl
  rw [hlen3]
  rw [loopW_cons_open (containerFuel k) 2 _ _ 0 u "mdalerttip".data
    ["x".data] [] (matchOpenFence_tip u huw) hcapI]
  rw [show trimTrailingBlanks ["x".data] = ["x".data] from by decide]
  rw [show joinNl ["x".data] = "x".data from rfl]
  rw [containerFuel_x k]
  rw [if_neg (by decide)]
  rw [show splitOnNl "x".data = ["x".data] from by decide]
  rw [show (["x".data] : List (List Char)).map (u ++ ·) = [u ++ "x".data]
    from rfl]
  rw [loopW_nil]
  rw [show ((u ++ alertBegin 0 "mdalerttip".data) :: [] ::
      [u ++ "x".data] ++ [] :: (u ++ alertEnd 0 "mdalerttip".data) ::
      ([] : List (List Char))) =
    [u ++ alertBegin 0 "mdalerttip".data, [], u ++ "x".data, [],
      u ++ alertEnd 0 "mdalerttip".data] from rfl]
  rw [show ∀ (A B C : List Char), joinNl [A, [], B, [], C] =
    A ++ '\n' :: '\n' :: (B ++ '\n' :: '\n' :: C) from fun _ _ _ => rfl]
  rw [show alertBegin 0 "mdalerttip".data =
    "__ALERT_BEGIN_0_mdalerttip__".data from by decide]
  rw [show alertEnd 0 "mdalerttip".data =
    "__ALERT_END_0_mdalerttip__".data from by decide]

theorem forall_mem_cons2 {P : Char → Prop} {x : Char} {l : List Char}
    (hx : P x) (hl : ∀ c ∈ l, P c) : ∀ c ∈ x :: l, P c := by
  intro c hc
  rcases List.mem_cons.mp hc with rfl | hc
  · exact hx
  · exact hl c hc

theorem alerts_markers_calc (a b : List Char)
    (ha : ∀ c ∈ a, isWsChar c = true) (hb : ∀ c ∈ b, isWsChar c = true) :
    envMarkers (post_process_alerts
      ((a ++ "__ALERT_BEGIN_0_mdalertnote__".data) ++ '\n' :: '\n' ::
        ((a ++ (b ++ "__ALERT_BEGIN_0_mdalerttip__".data)) ++ '\n' ::
          (a ++ '\n' :: ((a ++ (b ++ "x".data)) ++ '\n' ::
            (a ++ '\n' :: ((a ++ (b ++ "__ALERT_END_0_mdalerttip__".data)) ++
              '\n' :: '\n' :: (a ++ "__ALERT_END_0_mdalertnote__".data)))))))) =
      [(true, "mdalertnote".data), (true, "mdalerttip".data),
       (false, "mdalerttip".data), (false, "mdalertnote".data)] := by
  rw [show ((a ++ "__ALERT_BEGIN_0_mdalertnote__".data) ++ '\n' :: '\n' ::
        ((a ++ (b ++ "__ALERT_BEGIN_0_mdalerttip__".data)) ++ '\n' ::
          (a ++ '\n' :: ((a ++ (b ++ "x".data)) ++ '\n' ::
            (a ++ '\n' :: ((a ++ (b ++ "__ALERT_END_0_mdalerttip__".data)) ++
              '\n' :: '\n' :: (a ++ "__ALERT_END_0_mdalertnote__".data))))))) =
      (a ++ ("__ALERT_BEGIN_0_mdalertnote__".data ++ '\n' :: '\n' ::
        (a ++ (b ++ ("__ALERT_BEGIN_0_mdalerttip__".data ++ '\n' ::
          (a ++ '\n' :: (a ++ (b ++ ('x' :: '\n' ::
            (a ++ '\n' :: (a ++ (b ++ ("__ALERT_END_0_mdalerttip__".data ++
              '\n' :: '\n' :: (a ++ "__ALERT_END_0_mdalertnote__".data))))))))))))))
    from by simp]
  have hTa : ∀ c ∈ a, (c = '_' : Bool) = false :=
    fun c hc => by simp [(wsFacts c (ha c hc)).2.1]
  have hTb : ∀ c ∈ b, (c = '_' : Bool) = false :=
    fun c hc => by simp [(wsFacts c (hb c hc)).2.1]
  have htb : ∀ c t, (c = '_' : Bool) = false → tryAlertBegin (c :: t) = none :=
    fun c t hc => tryAlertBegin_none (by simpa using hc)
  have hte : ∀ c t, (c = '_' : Bool) = false → tryAlertEnd (c :: t) = none :=
    fun c t hc => tryAlertEnd_none (by simpa using hc)
  have hEa : ∀ c ∈ a, ¬(c = '\\') := fun c hc => (wsFacts c (ha c hc)).2.2.1
  have hEb : ∀ c ∈ b, ¬(c = '\\') := fun c hc => (wsFacts c (hb c hc)).2.2.1
  have hGa : ∀ c ∈ a, ((c = '\x60' : Bool) || (c = '$' : Bool)) = false :=
    fun c hc => (wsFacts c (ha c hc)).2.2.2
  have hGb : ∀ c ∈ b, ((c = '\x60' : Bool) || (c = '$' : Bool)) = false :=
    fun c hc => (wsFacts c (hb c hc)).2.2.2
  have htrig : ∀ c ∈ (a ++ ("__ALERT_BEGIN_0_mdalertnote__".data ++ '\n' :: '\n' ::
        (a ++ (b ++ ("__ALERT_BEGIN_0_mdalerttip__".data ++ '\n' ::
          (a ++ '\n' :: (a ++ (b ++ ('x' :: '\n' ::
            (a ++ '\n' :: (a ++ (b ++ ("__ALERT_END_0_mdalerttip__".data ++
              '\n' :: '\n' :: (a ++ "__ALERT_END_0_mdalertnote__".data)))))))))))))),
      ((c = '\x60' : Bool) || (c = '$' : Bool)) = false :=
    forall_mem_append2 hGa (forall_mem_append2 (by decide)
      (forall_mem_cons2 (by decide) (forall_mem_cons2 (by decide)
        (forall_mem_append2 hGa (forall_mem_append2 hGb
          (forall_mem_append2 (by decide) (forall_mem_cons2 (by decide)
            (forall_mem_append2 hGa (forall_mem_cons2 (by decide)
              (forall_mem_append2 hGa (forall_mem_append2 hGb
                (forall_mem_cons2 (by decide) (forall_mem_cons2 (by decide)
                  (forall_mem_append2 hGa (forall_mem_cons2 (by decide)
                    (forall_mem_append2 hGa (forall_mem_append2 hGb
                      (forall_mem_append2 (by decide)
                        (forall_mem_cons2 (by decide) (forall_mem_cons2 (by decide)
                          (forall_mem_append2 hGa (by decide))))))))))))))))))))))
  rw [post_process_alerts_unfold _ _ [] (protect_eq_self _ htrig)]
  rw [restore_nil]
  rw [subF_append_skip _ htb a _ hTa]
  rw [subF_marker "__ALERT_BEGIN_0_mdalertnote__".data
    "\\begin\x7bmdalertnote\x7d".data _ (by decide) (tryAlertBegin_note _)]
  rw [subF_cons_none (tryAlertBegin_none (show ¬('\n' = '_') from by decide))]
  rw [subF_cons_none (tryAlertBegin_none (show ¬('\n' = '_') from by decide))]
  rw [subF_append_skip _ htb a _ hTa]
  rw [subF_append_skip _ htb b _ hTb]
  rw [subF_marker "__ALERT_BEGIN_0_mdalerttip__".data
    "\\begin\x7bmdalerttip\x7d".data _ (by decide) (tryAlertBegin_tip _)]
  rw [subF_cons_none (tryAlertBegin_none (show ¬('\n' = '_') from by decide))]
  rw [subF_append_skip _ htb a _ hTa]
  rw [subF_cons_none (tryAlertBegin_none (show ¬('\n' = '_') from by decide))]
  rw [subF_append_skip _ htb a _ hTa]
  rw [subF_append_skip _ htb b _ hTb]
  rw [subF_cons_none (tryAlertBegin_none (show ¬('x' = '_') from by decide))]
  rw [subF_cons_none (tryAlertBegin_none (show ¬('\n' = '_') from by decide))]
  rw [subF_append_skip _ htb a _ hTa]
  rw [subF_cons_none (tryAlertBegin_none (show ¬('\n' = '_') from by decide))]
  rw [subF_append_skip _ htb a _ hTa]
  rw [subF_append_skip _ htb b _ hTb]
  rw [subF_skip_concrete "__ALERT_END_0_mdalerttip__".data _ (by
    intro i hi
    rw [show ("__ALERT_END_0_mdalerttip__".data : List Char).length = 26
      from rfl] at hi
    interval_cases i <;> rfl)]
  rw [subF_cons_none (tryAlertBegin_none (show ¬('\n' = '_') from by decide))]
  rw [subF_cons_none (tryAlertBegin_none (show ¬('\n' = '_') from by decide))]
  rw [subF_append_skip _ htb a _ hTa]
  rw [show subF tryAlertBegin "__ALERT_END_0_mdalertnote__".data =
    "__ALERT_END_0_mdalertnote__".data from by decide]
  rw [subF_append_skip _ hte a _ hTa]
  rw [subF_append_skip _ hte "\\begin\x7bmdalertnote\x7d".data _ (by decide)]
  rw [subF_cons_none (tryAlertEnd_none (show ¬('\n' = '_') from by decide))]
  rw [subF_cons_none (tryAlertEnd_none (show ¬('\n' = '_') from by decide))]
  rw [subF_append_skip _ hte a _ hTa]
  rw [subF_append_skip _ hte b _ hTb]
  rw [subF_append_skip _ hte "\\begin\x7bmdalerttip\x7d".data _ (by decide)]
  rw [subF_cons_none (tryAlertEnd_none (show ¬('\n' = '_') from by decide))]
  rw [subF_append_skip _ hte a _ hTa]
  rw [subF_cons_none (tryAlertEnd_none (show ¬('\n' = '_') from by decide))]
  rw [subF_append_skip _ hte a _ hTa]
  rw [subF_append_skip _ hte b _ hTb]
  rw [subF_cons_none (tryAlertEnd_none (show ¬('x' = '_') from by decide))]
  rw [subF_cons_none (tryAlertEnd_none (show ¬('\n' = '_') from by decide))]
  rw [subF_append_skip _ hte a _ hTa]
  rw [subF_cons_none (tryAlertEnd_none (show ¬('\n' = '_') from by decide))]
  rw [subF_append_skip _ hte a _ hTa]
  rw [subF_append_skip _ hte b _ hTb]
  rw [subF_marker "__ALERT_END_0_mdalerttip__".data
    "\\end\x7bmdalerttip\x7d".data _ (by decide) (tryAlertEnd_tip _)]
  rw [subF_cons_none (tryAlertEnd_none (show ¬('\n' = '_') from by decide))]
  rw [subF_cons_none (tryAlertEnd_none (show ¬('\n' = '_') from by decide))]
  rw [subF_append_skip _ hte a _ hTa]
  rw [show subF tryAlertEnd "__ALERT_END_0_mdalertnote__".data =
    "\\end\x7bmdalertnote\x7d".data from by decide]
  have hegB : ∀ rest, envMarkers (("\\begin\x7bmdalertnote\x7d".data :
      List Char) ++ rest) = (true, "mdalertnote".data) :: envMarkers rest := by
    intro rest
    rw [show ("\\begin\x7bmdalertnote\x7d".data : List Char) ++ rest =
      '\\' :: ("begin\x7b".data ++ ("mdalertnote".data ++ ('\x7d' :: rest)))
      from by simp]
    exact envMarkers_begin _ _ (by decide)
  have hegT : ∀ rest, envMarkers (("\\begin\x7bmdalerttip\x7d".data :
      List Char) ++ rest) = (true, "mdalerttip".data) :: envMarkers rest := by
    intro rest
    rw [show ("\\begin\x7bmdalerttip\x7d".data : List Char) ++ rest =
      '\\' :: ("begin\x7b".data ++ ("mdalerttip".data ++ ('\x7d' :: rest)))
      from by simp]
    exact envMarkers_begin _ _ (by decide)
  have heeT : ∀ rest, envMarkers (("\\end\x7bmdalerttip\x7d".data :
      List Char) ++ rest) = (false, "mdalerttip".data) :: envMarkers rest := by
    intro rest
    rw [show ("\\end\x7bmdalerttip\x7d".data : List Char) ++ rest =
      '\\' :: ("end\x7b".data ++ ("mdalerttip".data ++ ('\x7d' :: rest)))
      from by simp]
    exact envMarkers_end _ _ (by decide)
  rw [envMarkers_append_skip a hEa]
  rw [hegB]
  rw [envMarkers_cons_skip (show ¬('\n' = '\\') from by decide)]
  rw [envMarkers_cons_skip (show ¬('\n' = '\\') from by decide)]
  rw [envMarkers_append_skip a hEa]
  rw [envMarkers_append_skip b hEb]
  rw [hegT]
  rw [envMarkers_cons_skip (show ¬('\n' = '\\') from by decide)]
  rw [envMarkers_append_skip a hEa]
  rw [envMarkers_cons_skip (show ¬('\n' = '\\') from by decide)]
  rw [envMarkers_append_skip a hEa]
  rw [envMarkers_append_skip b hEb]
  rw [envMarkers_cons_skip (show ¬('x' = '\\') from by decide)]
  rw [envMarkers_cons_skip (show ¬('\n' = '\\') from by decide)]
  rw [envMarkers_append_skip a hEa]
  rw [envMarkers_cons_skip (show ¬('\n' = '\\') from by decide)]
  rw [envMarkers_append_skip a hEa]
  rw [envMarkers_append_skip b hEb]
  rw [heeT]
  rw [envMarkers_cons_skip (show ¬('\n' = '\\') from by decide)]
  rw [envMarkers_cons_skip (show ¬('\n' = '\\') from by decide)]
  rw [envMarkers_append_skip a hEa]
  rw [show envMarkers "\\end\x7bmdalertnote\x7d".data =
    [(false, "mdalertnote".data)] from by decide]


set_option maxHeartbeats 2000000 in
/-- C5: a document with a `:::note` container enclosing a nested
`:::tip ... :::` container closed by a final bare `:::` is parsed by the
container pass plus the marker-resolution pass into exactly the four
environment markers begin-note, begin-tip, end-tip, end-note (note outer,
tip inner), for every choice of leading indentation on the four fence
lines. -/
theorem C5_nested_container_markers (w1 w2 w3 w4 : List Char)
    (h1 : ∀ c ∈ w1, isWsChar c = true ∧ ¬(c = '\n'))
    (h2 : ∀ c ∈ w2, isWsChar c = true ∧ ¬(c = '\n'))
    (h3 : ∀ c ∈ w3, isWsChar c = true ∧ ¬(c = '\n'))
    (h4 : ∀ c ∈ w4, isWsChar c = true ∧ ¬(c = '\n')) :
    envMarkers (post_process_alerts (process_container_blocks (joinNl
        [w1 ++ ":::note".data, w2 ++ ":::tip".data, "x".data,
         w3 ++ ":::".data, w4 ++ ":::".data]))) =
      [(true, "mdalertnote".data), (true, "mdalerttip".data),
       (false, "mdalerttip".data), (false, "mdalertnote".data)] := by
  have hw1 : ∀ c ∈ w1, isWsChar c = true := fun c hc => (h1 c hc).1
  have hw2 : ∀ c ∈ w2, isWsChar c = true := fun c hc => (h2 c hc).1
  have hw3 : ∀ c ∈ w3, isWsChar c = true := fun c hc => (h3 c hc).1
  have hw4 : ∀ c ∈ w4, isWsChar c = true := fun c hc => (h4 c hc).1
  obtain ⟨u2, hu2v, hcl2⟩ :=
    cleanLine_ws_ws w1 w2 ':' "::tip".data hw1 hw2 (by decide)
  have hcl2' : cleanLine w1 (w2 ++ ":::tip".data) = u2 ++ ":::tip".data := hcl2
  obtain ⟨u3, hu3v, hcl4⟩ :=
    cleanLine_ws_ws w1 w3 ':' "::".data hw1 hw3 (by decide)
  have hcl4' : cleanLine w1 (w3 ++ ":::".data) = u3 ++ ":::".data := hcl4
  have hu2f : ∀ c ∈ u2, isWsChar c = true ∧ ¬(c = '\n') :=
    fun c hc => h2 c (hu2v c hc)
  have hu3f : ∀ c ∈ u3, isWsChar c = true ∧ ¬(c = '\n') :=
    fun c hc => h3 c (hu3v c hc)
  have hu2 : ∀ c ∈ u2, isWsChar c = true := fun c hc => (hu2f c hc).1
  have htrigDoc : ∀ c ∈ joinNl
      [w1 ++ ":::note".data, w2 ++ ":::tip".data, "x".data,
       w3 ++ ":::".data, w4 ++ ":::".data],
      ((c = '\x60' : Bool) || (c = '$' : Bool)) = false := by
    refine forall_mem_joinNl _ (by decide) _ ?_
    intro l hl
    simp only [List.mem_cons, List.not_mem_nil, or_false] at hl
    rcases hl with rfl | rfl | rfl | rfl | rfl
    · exact forall_mem_append2
        (fun c hc => (wsFacts c (hw1 c hc)).2.2.2) (by decide)
    · exact forall_mem_append2
        (fun c hc => (wsFacts c (hw2 c hc)).2.2.2) (by decide)
    · exact (by decide)
    · exact forall_mem_append2
        (fun c hc => (wsFacts c (hw3 c hc)).2.2.2) (by decide)
    · exact forall_mem_append2
        (fun c hc => (wsFacts c (hw4 c hc)).2.2.2) (by decide)
  simp only [process_container_blocks]
  rw [containerFuel_succ_unfold _ _ _ [] (protect_eq_self _ htrigDoc)]
  rw [restore_nil]
  rw [splitOnNl_joinNl _ (by simp) ?hnl]
  case hnl =>
    intro l hl
    simp only [List.mem_cons, List.not_mem_nil, or_false] at hl
    rcases hl with rfl | rfl | rfl | rfl | rfl
    · exact forall_mem_append2 (fun c hc => (h1 c hc).2) (by decide)
    · exact forall_mem_append2 (fun c hc => (h2 c hc).2) (by decide)
    · exact (by decide)
    · exact forall_mem_append2 (fun c hc => (h3 c hc).2) (by decide)
    · exact forall_mem_append2 (fun c hc => (h4 c hc).2) (by decide)
  have hclx1 : cleanLine w1 "x".data = "x".data :=
    cleanLine_nonws_head w1 hw1 'x' [] (by decide)
  have hcap1 : captureBlock w1 [w4 ++ ":::".data] 1 = ([], []) :=
    captureBlock_cons_close_end w1 _ []
      (matchOpenFence_bare w4 hw4) (matchCloseFence_bare w4 hw4)
  have hcap2 : captureBlock w1 [w3 ++ ":::".data, w4 ++ ":::".data] 2 =
      ([u3 ++ ":::".data], []) := by
    rw [captureBlock_cons_close_dec w1 _ _ 2 [] []
      (matchOpenFence_bare w3 hw3) (matchCloseFence_bare w3 hw3)
      (by decide) hcap1]
    rw [hcl4']
  have hcap3 : captureBlock w1
      ["x".data, w3 ++ ":::".data, w4 ++ ":::".data] 2 =
      (["x".data, u3 ++ ":::".data], []) := by
    rw [captureBlock_cons_other w1 "x".data _ 2 _ _ (by decide) (by decide)
      hcap2]
    rw [hclx1]
  have hcap4 : captureBlock w1
      [w2 ++ ":::tip".data, "x".data, w3 ++ ":::".data, w4 ++ ":::".data]
      1 = ([u2 ++ ":::tip".data, "x".data, u3 ++ ":::".data], []) := by
    rw [captureBlock_cons_open w1 _ _ 1 (w2, "mdalerttip".data) _ _
      (matchOpenFence_tip w2 hw2) hcap3]
    rw [hcl2']
  have hns3 : (pyStrip (u3 ++ ":::".data)).isEmpty = false := by
    have := pyStrip_ws_cons u3 ':' "::".data
      (fun c hc => (hu3f c hc).1) (by decide)
    exact this
  have htrim : trimTrailingBlanks
      [u2 ++ ":::tip".data, "x".data, u3 ++ ":::".data] =
      [u2 ++ ":::tip".data, "x".data, u3 ++ ":::".data] := by
    simp only [trimTrailingBlanks]
    rw [show ([u2 ++ ":::tip".data, "x".data, u3 ++ ":::".data] :
        List (List Char)).reverse =
      [u3 ++ ":::".data, "x".data, u2 ++ ":::tip".data] from by simp]
    rw [List.dropWhile_cons_of_neg (by simp [hns3])]
    simp
  rw [show ([w1 ++ ":::note".data, w2 ++ ":::tip".data, "x".data,
      w3 ++ ":::".data, w4 ++ ":::".data] : List (List Char)).length =
    4 + 1 from rfl]
  rw [loopW_cons_open _ 4 _ _ 0 w1 "mdalertnote".data
    [u2 ++ ":::tip".data, "x".data, u3 ++ ":::".data] []
    (matchOpenFence_note w1 hw1) hcap4]
  rw [htrim]
  have hpos : 0 < (joinNl
      [w1 ++ ":::note".data, w2 ++ ":::tip".data, "x".data,
       w3 ++ ":::".data, w4 ++ ":::".data]).length := by
    rw [show joinNl [w1 ++ ":::note".data, w2 ++ ":::tip".data, "x".data,
        w3 ++ ":::".data, w4 ++ ":::".data] =
      (w1 ++ ":::note".data) ++ '\n' :: joinNl
        [w2 ++ ":::tip".data, "x".data, w3 ++ ":::".data,
         w4 ++ ":::".data] from rfl]
    simp
  obtain ⟨k, hk⟩ : ∃ k, (joinNl
      [w1 ++ ":::note".data, w2 ++ ":::tip".data, "x".data,
       w3 ++ ":::".data, w4 ++ ":::".data]).length = k + 1 :=
    ⟨_, (Nat.succ_pred_eq_of_pos hpos).symm⟩
  rw [hk]
  rw [containerFuel_tip_block k u2 u3 hu2f hu3f]
  rw [if_neg (by simp)]
  rw [splitOnNl_append_nl _ _ (forall_mem_append2
    (fun c hc => (hu2f c hc).2) (by decide))]
  rw [splitOnNl_nl_cons]
  rw [splitOnNl_append_nl _ _ (forall_mem_append2
    (fun c hc => (hu2f c hc).2) (by decide))]
  rw [splitOnNl_nl_cons]
  rw [splitOnNl_no_nl _ (forall_mem_append2
    (fun c hc => (hu2f c hc).2) (by decide))]
  rw [show ([u2 ++ "__ALERT_BEGIN_0_mdalerttip__".data, [],
      u2 ++ "x".data, [], u2 ++ "__ALERT_END_0_mdalerttip__".data] :
      List (List Char)).map (w1 ++ ·) =
    [w1 ++ (u2 ++ "__ALERT_BEGIN_0_mdalerttip__".data), w1 ++ [],
     w1 ++ (u2 ++ "x".data), w1 ++ [],
     w1 ++ (u2 ++ "__ALERT_END_0_mdalerttip__".data)] from rfl]
  simp only [List.append_nil]
  rw [loopW_nil]
  rw [show ∀ (a b c d e f g : List Char),
    (a :: ([] : List Char) :: [b, c, d, e, f] ++
      ([] : List Char) :: g :: ([] : List (List Char))) =
    [a, [], b, c, d, e, f, [], g] from fun _ _ _ _ _ _ _ => rfl]
  rw [show ∀ (a b c d e f g : List Char),
    joinNl [a, [], b, c, d, e, f, [], g] =
      a ++ '\n' :: '\n' :: (b ++ '\n' :: (c ++ '\n' :: (d ++ '\n' ::
        (e ++ '\n' :: (f ++ '\n' :: '\n' :: g)))))
    from fun _ _ _ _ _ _ _ => rfl]
  rw [show alertBegin 0 "mdalertnote".data =
    "__ALERT_BEGIN_0_mdalertnote__".data from by decide]
  rw [show alertEnd 0 "mdalertnote".data =
    "__ALERT_END_0_mdalertnote__".data from by decide]
  exact alerts_markers_calc w1 u2 hw1 hu2

set_option maxRecDepth 100000 in
/-- Concrete instance of the C5 theorem with four distinct indentations. -/
theorem C5_nested_container_markers_witness :
    (∀ c ∈ "  ".data, isWsChar c = true ∧ ¬(c = '\n')) ∧
    envMarkers (post_process_alerts (process_container_blocks (joinNl
        ["  ".data ++ ":::note".data, "    ".data ++ ":::tip".data, "x".data,
         "\t".data ++ ":::".data, [] ++ ":::".data]))) =
      [(true, "mdalertnote".data), (true, "mdalerttip".data),
       (false, "mdalerttip".data), (false, "mdalertnote".data)] :=
  ⟨by decide,
    C5_nested_container_markers "  ".data "    ".data "\t".data []
      (by decide) (by decide) (by decide) (by decide)⟩
